import Mathlib

/-!
# Verification of the sandboxed Python code-execution engine

Shallow embedding of `frappe_assistant_core/plugins/data_science/tools/run_python_code.py`
(class `ExecutePythonCode`).  Python strings are modelled as `List Char` for the
text-processing stages; `_sanitize_unicode` is modelled over `List Nat` of raw
code points, because Python `str` values may contain lone UTF-16 surrogates,
which Lean `Char` cannot represent.  Python's `exec` of arbitrary script text is
modelled as an oracle (`ExecOutcome`), since the executed script is arbitrary;
the surrounding control flow of `execute` and `_execute_code_with_timeout` is
translated directly from the source.
-/

set_option maxRecDepth 10000
set_option linter.unusedVariables false

namespace RunPythonCode

/-- Shorthand: the character list of a string literal. -/
def lc (s : String) : List Char := s.data

/-- ASCII whitespace recognised by Python `str.strip` / regex `\s`
(the source code only ever meets ASCII whitespace here). -/
def isPySpace (c : Char) : Bool :=
  c = ' ' ∨ c = '\t' ∨ c = '\n' ∨ c = '\r' ∨ c = '\x0b' ∨ c = '\x0c'

/-- Regex word character `\w` (ASCII). -/
def isWordChar (c : Char) : Bool :=
  ('a' ≤ c ∧ c ≤ 'z') ∨ ('A' ≤ c ∧ c ≤ 'Z') ∨ ('0' ≤ c ∧ c ≤ '9') ∨ c = '_'

/-- ASCII lower-casing, as applied by `re.IGNORECASE` / `str.lower` on ASCII. -/
def lowerC (c : Char) : Char :=
  if 'A' ≤ c ∧ c ≤ 'Z' then Char.ofNat (c.toNat + 32) else c

def lowerL (s : List Char) : List Char := s.map lowerC

/-- Python `str.lstrip()` (left part of `str.strip`). -/
def stripLeft (s : List Char) : List Char := s.dropWhile isPySpace

/-- Python `str.rstrip()` (right part of `str.strip`). -/
def stripRight (s : List Char) : List Char :=
  ((s.reverse).dropWhile isPySpace).reverse

/-- Python `str.strip()`. -/
def pyStrip (s : List Char) : List Char := stripRight (stripLeft s)

/-- Python `str.split(sep)` for a one-character separator. -/
def splitOnChar (sep : Char) : List Char → List (List Char)
  | [] => [[]]
  | c :: cs =>
    match splitOnChar sep cs with
    | [] => [[]]
    | r :: rs => if c = sep then [] :: r :: rs else (c :: r) :: rs

/-- Python `sep.join(parts)`. -/
def joinSep (sep : List Char) : List (List Char) → List Char
  | [] => []
  | [x] => x
  | x :: y :: xs => x ++ sep ++ joinSep sep (y :: xs)

/-- Decimal rendering of a natural number (Python `str(n)` / `f"{n}"`). -/
def natRepr (n : Nat) : List Char := (Nat.repr n).data

/-- Decidable substring test (Python `a in b` on strings). -/
def isInfixL (pat s : List Char) : Bool :=
  s.tails.any (fun t => pat.isPrefixOf t)

/-- Fueled core of Python `str.replace(old, new)` (replace every
non-overlapping occurrence, scanning left to right). -/
def pyReplaceFuel (old new : List Char) : Nat → List Char → List Char
  | 0, s => s
  | _ + 1, [] => []
  | fuel + 1, c :: cs =>
    if old.isPrefixOf (c :: cs) ∧ old ≠ [] then
      new ++ pyReplaceFuel old new fuel ((c :: cs).drop old.length)
    else
      c :: pyReplaceFuel old new fuel cs

/-- Python `s.replace(old, new)` (for nonempty `old`; with empty `old` the
Python semantics is never exercised by the source). -/
def pyReplace (s old new : List Char) : List Char :=
  pyReplaceFuel old new s.length s

/-! ## `_sanitize_unicode` (the effective second definition, lines 1344-1413)

A Python `str` is a sequence of code points that may include lone UTF-16
surrogates (U+D800..U+DFFF), so it is modelled as `List Nat`.  CPython
`str.encode("utf-8")` raises `UnicodeEncodeError` exactly when the string
contains a surrogate code point, which is what `utf8Encodable` captures. -/

/-- Code point in the UTF-16 surrogate range `0xD800 <= ord(char) <= 0xDFFF`. -/
def isSurrogate (c : Nat) : Bool := 0xD800 ≤ c ∧ c ≤ 0xDFFF

/-- CPython `s.encode("utf-8")` succeeds iff no code point is a surrogate. -/
def utf8Encodable (s : List Nat) : Bool := s.all (fun c => ¬ isSurrogate c)

/-- The cleaning loop of `_sanitize_unicode`: replace each surrogate with a
space (0x20) and count the replacements. -/
def cleanChars : List Nat → (List Nat × Nat)
  | [] => ([], 0)
  | c :: cs =>
    let r := cleanChars cs
    if isSurrogate c then (0x20 :: r.1, r.2 + 1) else (c :: r.1, r.2)

structure SanitizeResult where
  success : Bool
  code : List Nat := []
  warning : Option (List Char) := none
  error : Option (List Char) := none
  unicode_error : Bool := false
  deriving DecidableEq, Repr

/-- The warning text `f"Cleaned {surrogate_count} surrogate character(s) from code"`. -/
def sanitizeWarning (n : Nat) : List Char :=
  lc "Cleaned " ++ natRepr n ++ lc " surrogate character(s) from code"

/-- Model of `_sanitize_unicode` (run_python_code.py lines 1344-1413): replace each
surrogate code point with a space; if the cleaned code still fails to encode
as UTF-8 return the fatal rejection, else success with a warning when any
surrogate was cleaned. -/
def sanitizeUnicode (code : List Nat) : SanitizeResult :=
  let cleaned := (cleanChars code).1
  let surrogateCount := (cleanChars code).2
  if ¬ utf8Encodable cleaned then
    { success := false
      error := some (lc "🚫 Unicode Error: Code contains characters that cannot be encoded in UTF-8. Please remove or replace non-standard Unicode characters.")
      unicode_error := true }
  else
    { success := true
      code := cleaned
      warning := if surrogateCount > 0 then some (sanitizeWarning surrogateCount) else none }

/-! ## `_scan_for_dangerous_operations` (lines 1253-1342)

Each regex of the `dangerous_patterns` table is translated into an explicit
matcher.  `re.search(p, code, re.IGNORECASE | re.MULTILINE)` is modelled as
"the matcher fires at some position"; matchers take the previous character
so that the `\b` word boundaries of `\bexec\s*\(` and `\beval\s*\(` can be
checked.  `re.MULTILINE` is irrelevant (no pattern uses `^` or `$`). -/

/-- Consume a literal case-insensitively (regex literal under `re.IGNORECASE`),
returning the rest of the input on success. -/
def eatCI : List Char → List Char → Option (List Char)
  | [], s => some s
  | _ :: _, [] => none
  | p :: ps, c :: cs => if lowerC c = lowerC p then eatCI ps cs else none

/-- Consume `\s*`. -/
def eatWs (s : List Char) : List Char := s.dropWhile isPySpace

/-- Consume one literal character. -/
def eatChar (ch : Char) : List Char → Option (List Char)
  | [] => none
  | c :: cs => if c = ch then some cs else none

/-- The destructive SQL verbs of the two `db.sql` patterns. -/
def destructiveTokens : List (List Char) :=
  [lc "DELETE", lc "DROP", lc "INSERT", lc "UPDATE", lc "ALTER",
   lc "CREATE", lc "TRUNCATE", lc "REPLACE"]

/-- Tail of the raw-query patterns: `\s*\(\s*['\"](?:DELETE|...|REPLACE)`. -/
def dbSqlCore (s : List Char) : Bool :=
  match eatChar '(' (eatWs s) with
  | none => false
  | some r =>
    match eatWs r with
    | [] => false
    | q :: r2 =>
      (q = '\x27' ∨ q = '"') ∧ destructiveTokens.any (fun t => (eatCI t r2).isSome)

/-- One matcher: fires at a position given the previous character and the rest. -/
def PatMatcher : Type := Option Char → List Char → Bool

/-- Pattern `db\.sql\s*\(\s*['\"](?:DELETE|DROP|INSERT|UPDATE|ALTER|CREATE|TRUNCATE|REPLACE)`. -/
def dbSqlPat : PatMatcher := fun _ s =>
  match eatCI (lc "db.sql") s with
  | some r => dbSqlCore r
  | none => false

/-- Pattern `frappe\.db\.sql\s*\(\s*['\"](?:DELETE|...)`. -/
def frappeDbSqlPat : PatMatcher := fun _ s =>
  match eatCI (lc "frappe.db.sql") s with
  | some r => dbSqlCore r
  | none => false

/-- Word boundary `\b` before a word character: previous char absent or not `\w`. -/
def atWordBoundary : Option Char → Bool
  | none => true
  | some c => ¬ isWordChar c

/-- Matcher for `name\s*\(` (no leading word boundary in the regex). -/
def callPat (name : String) : PatMatcher := fun _ s =>
  match eatCI (lc name) s with
  | some r => (eatChar '(' (eatWs r)).isSome
  | none => false

/-- Matcher for `\bname\s*\(`. -/
def boundedCallPat (name : String) : PatMatcher := fun prev s =>
  atWordBoundary prev &&
    match eatCI (lc name) s with
    | some r => (eatChar '(' (eatWs r)).isSome
    | none => false

/-- Matcher for `name\s*\(\s*frappe` (the `setattr`/`delattr` patterns). -/
def attrOnFrappePat (name : String) : PatMatcher := fun _ s =>
  match eatCI (lc name) s with
  | some r =>
    match eatChar '(' (eatWs r) with
    | some r2 => (eatCI (lc "frappe") (eatWs r2)).isSome
    | none => false
  | none => false

/-- Matcher for `base\s*\.\s*\w+\s*=` (the `frappe.local` / `frappe.session`
assignment patterns). -/
def attrAssignPat (base : String) : PatMatcher := fun _ s =>
  match eatCI (lc base) s with
  | some r =>
    match eatChar '.' (eatWs r) with
    | some r2 =>
      let r3 := eatWs r2
      let w := r3.takeWhile isWordChar
      (decide (w ≠ [])) &&
        match eatWs (r3.drop w.length) with
        | '=' :: _ => true
        | _ => false
    | none => false
  | none => false

/-- Matcher for a bare substring pattern such as `urllib`. -/
def substrPat (name : String) : PatMatcher := fun _ s => (eatCI (lc name) s).isSome

/-- Model of `re.search`: try the matcher at every position (walking the string
while remembering the previous character for `\b`). -/
def searchFound (m : PatMatcher) : Option Char → List Char → Bool
  | prev, [] => m prev []
  | prev, c :: cs => m prev (c :: cs) || searchFound m (some c) cs

/-- Regex source text of the first `db.sql` pattern (the `pattern_matched`
value reported for it). -/
def dbSqlPatternText : List Char :=
  lc "db\\.sql\\s*\\(\\s*[\x27\"](?:DELETE|DROP|INSERT|UPDATE|ALTER|CREATE|TRUNCATE|REPLACE)"

/-- The ordered `dangerous_patterns` table: matcher, regex source text, message. -/
def dangerousPatterns : List (PatMatcher × List Char × List Char) :=
  [(dbSqlPat,
    dbSqlPatternText,
    lc "Dangerous SQL operation detected in db.sql()"),
   (frappeDbSqlPat,
    lc "frappe\\.db\\.sql\\s*\\(\\s*[\x27\"](?:DELETE|DROP|INSERT|UPDATE|ALTER|CREATE|TRUNCATE|REPLACE)",
    lc "Dangerous SQL operation detected in frappe.db.sql()"),
   (boundedCallPat "exec", lc "\\bexec\\s*\\(", lc "Code execution via exec() not allowed"),
   (boundedCallPat "eval", lc "\\beval\\s*\\(", lc "Code evaluation via eval() not allowed"),
   (callPat "__import__", lc "__import__\\s*\\(", lc "Dynamic imports via __import__() not allowed"),
   (callPat "compile", lc "compile\\s*\\(", lc "Code compilation not allowed"),
   (attrOnFrappePat "setattr", lc "setattr\\s*\\(\\s*frappe", lc "Frappe framework modification not allowed"),
   (attrOnFrappePat "delattr", lc "delattr\\s*\\(\\s*frappe", lc "Frappe framework modification not allowed"),
   (attrAssignPat "frappe.local", lc "frappe\\.local\\s*\\.\\s*\\w+\\s*=", lc "Frappe local context modification not allowed"),
   (attrAssignPat "frappe.session", lc "frappe\\.session\\s*\\.\\s*\\w+\\s*=", lc "Frappe session modification not allowed"),
   (callPat "open", lc "open\\s*\\(", lc "File system access not allowed"),
   (callPat "file", lc "file\\s*\\(", lc "File system access not allowed"),
   (callPat "input", lc "input\\s*\\(", lc "User input not allowed in code execution"),
   (callPat "raw_input", lc "raw_input\\s*\\(", lc "User input not allowed in code execution"),
   (callPat "db.set_value", lc "db\\.set_value\\s*\\(", lc "Database write operation db.set_value() not allowed"),
   (callPat "db.delete", lc "db\\.delete\\s*\\(", lc "Database delete operation not allowed"),
   (callPat "db.insert", lc "db\\.insert\\s*\\(", lc "Database insert operation not allowed"),
   (callPat "db.truncate", lc "db\\.truncate\\s*\\(", lc "Database truncate operation not allowed"),
   (substrPat "urllib", lc "urllib", lc "Network access not allowed"),
   (substrPat "requests", lc "requests", lc "Network access not allowed"),
   (substrPat "socket", lc "socket", lc "Network access not allowed"),
   (substrPat "http", lc "http", lc "Network access not allowed")]

structure ScanResult where
  success : Bool
  error : Option (List Char) := none
  pattern_matched : Option (List Char) := none
  security_violation : Bool := false
  deriving DecidableEq, Repr

/-- Model of `_scan_for_dangerous_operations`: first matching pattern wins and
returns the failure dict; otherwise success.  (The `suspicious_vars` and
`sql_injection_patterns` passes only log and are omitted.) -/
def scanForDangerousOperations (code : List Char) : ScanResult :=
  match dangerousPatterns.find? (fun p => searchFound p.1 none code) with
  | some (_, pat, msg) =>
    { success := false
      error := some (lc "🚫 Security: " ++ msg)
      pattern_matched := some pat
      security_violation := true }
  | none => { success := true }

/-! ## `_check_and_handle_imports` (lines 769-883) -/

/-- The `safe_replacements` exact-match table (import line, replacement comment). -/
def safeReplacements : List (List Char × List Char) :=
  [(lc "import pandas as pd", lc "# pandas is pre-loaded as \"pd\""),
   (lc "import numpy as np", lc "# numpy is pre-loaded as \"np\""),
   (lc "import matplotlib.pyplot as plt", lc "# matplotlib is pre-loaded as \"plt\""),
   (lc "import seaborn as sns", lc "# seaborn is pre-loaded as \"sns\""),
   (lc "import frappe", lc "# frappe is pre-loaded"),
   (lc "import math", lc "# math is pre-loaded"),
   (lc "import datetime", lc "# datetime is pre-loaded"),
   (lc "import json", lc "# json is pre-loaded"),
   (lc "import re", lc "# re is pre-loaded"),
   (lc "import random", lc "# random is pre-loaded"),
   (lc "import statistics", lc "# statistics is pre-loaded"),
   (lc "import decimal", lc "# decimal is pre-loaded"),
   (lc "import fractions", lc "# fractions is pre-loaded"),
   (lc "import collections", lc "# collections allowed - Counter, defaultdict, etc."),
   (lc "import itertools", lc "# itertools allowed - combinatoric iterators"),
   (lc "import functools", lc "# functools allowed - higher-order functions"),
   (lc "import operator", lc "# operator allowed - standard operators"),
   (lc "import copy", lc "# copy allowed - shallow and deep copy"),
   (lc "import string", lc "# string allowed - string operations")]

/-- The `safe_prefixes` prefix-match table for `from X import` lines. -/
def safePrefixes : List (List Char × List Char) :=
  [(lc "from datetime import", lc "# datetime is pre-loaded"),
   (lc "from math import", lc "# math is pre-loaded"),
   (lc "from collections import", lc "# collections allowed"),
   (lc "from itertools import", lc "# itertools allowed"),
   (lc "from functools import", lc "# functools allowed"),
   (lc "from operator import", lc "# operator allowed")]

/-- Line classification used by both the mediator and the removal pass:
`stripped_line.startswith("import ") or stripped_line.startswith("from ")`. -/
def isImportStmt (stripped : List Char) : Bool :=
  (lc "import ").isPrefixOf stripped || (lc "from ").isPrefixOf stripped

/-- An import statement is safe when it matches the exact table or a prefix of
the prefix table. -/
def importIsSafe (stripped : List Char) : Bool :=
  (safeReplacements.lookup stripped).isSome ||
    safePrefixes.any (fun p => p.1.isPrefixOf stripped)

/-- Loop body of `_check_and_handle_imports` that builds `processed_lines`:
safe import lines are rewritten via `line.replace(stripped, comment)`, unknown
imports become a `# REMOVED:` comment, other lines pass through. -/
def processedLine (line : List Char) : List Char :=
  let stripped := pyStrip line
  if isImportStmt stripped then
    match safeReplacements.lookup stripped with
    | some repl => pyReplace line stripped repl
    | none =>
      match safePrefixes.find? (fun p => p.1.isPrefixOf stripped) with
      | some pr => pyReplace line stripped pr.2
      | none => lc "# REMOVED: " ++ stripped ++ lc " - library not available or not needed"
  else line

/-- The `import_lines` accumulator: `(i + 1, stripped_line)` for every line
that is an import statement. -/
def importLinesOf (lines : List (List Char)) : List (Nat × List Char) :=
  lines.enum.filterMap (fun p =>
    let stripped := pyStrip p.2
    if isImportStmt stripped then some (p.1 + 1, stripped) else none)

/-- The `problematic_imports` filter: import lines outside both safe tables. -/
def problematicImportsOf (lines : List (List Char)) : List (Nat × List Char) :=
  (importLinesOf lines).filter (fun p => ¬ importIsSafe p.2)

/-- One enumerated line `f"   Line {line_num}: {stmt}"` of the rejection text. -/
def problemLineText (p : Nat × List Char) : List Char :=
  lc "   Line " ++ natRepr p.1 ++ lc ": " ++ p.2

/-- Leading text of the rejection message. -/
def importErrorHeader : List Char :=
  lc "Import statements detected that are not available or needed:\n\n❌ Problematic imports found:\n"

/-- Trailing text of the rejection message (the list of what is available). -/
def importErrorFooter : List Char :=
  lc "\n\n✅ Available pre-loaded libraries (use directly, no imports needed):\n   • pd (pandas) - Data manipulation\n   • np (numpy) - Numerical operations\n   • plt (matplotlib) - Plotting\n   • sns (seaborn) - Statistical visualization\n   • frappe - Frappe API access\n   • math, datetime, json, re, random - Standard libraries\n\n💡 Example correct usage:\n   df = pd.DataFrame(\x7b\x27A\x27: [1,2,3]\x7d)\n   arr = np.array([1,2,3])\n   plt.plot(arr)\n   plt.show()"

/-- The rejection message of `_check_and_handle_imports` (lines 862-879). -/
def importErrorMsg (problematic : List (Nat × List Char)) : List Char :=
  importErrorHeader ++
  joinSep (lc "\n") (problematic.map problemLineText) ++
  importErrorFooter

structure CheckImportsResult where
  success : Bool
  code : List Char := []
  error : Option (List Char) := none
  deriving DecidableEq, Repr

/-- Model of `_check_and_handle_imports`: reject with the full enumeration when
any import is outside the safe tables, otherwise return the rewritten code. -/
def checkAndHandleImports (code : List Char) : CheckImportsResult :=
  let lines := splitOnChar '\n' code
  let importLines := importLinesOf lines
  let processed := lines.map processedLine
  if importLines ≠ [] then
    let problematic := problematicImportsOf lines
    if problematic ≠ [] then
      { success := false, error := some (importErrorMsg problematic) }
    else
      { success := true, code := joinSep (lc "\n") processed }
  else
    { success := true, code := joinSep (lc "\n") processed }

/-! ## `_remove_dangerous_imports` (lines 885-994) -/

/-- The `safe_modules` allow-list of the removal pass. -/
def safeModulesRemoval : List (List Char) :=
  [lc "math", lc "statistics", lc "decimal", lc "fractions", lc "cmath",
   lc "datetime", lc "time", lc "calendar",
   lc "json", lc "re", lc "string", lc "textwrap", lc "unicodedata",
   lc "collections", lc "itertools", lc "functools", lc "operator",
   lc "heapq", lc "bisect", lc "array", lc "copy",
   lc "random", lc "secrets",
   lc "pandas", lc "numpy", lc "matplotlib", lc "seaborn", lc "plotly", lc "scipy",
   lc "pd", lc "np", lc "plt", lc "sns", lc "go", lc "px", lc "stats"]

/-- The `dangerous_modules` block-list of the removal pass. -/
def dangerousModules : List (List Char) :=
  [lc "os", lc "sys", lc "subprocess", lc "socket", lc "urllib", lc "requests",
   lc "http", lc "ftplib", lc "smtplib", lc "imaplib", lc "poplib",
   lc "telnetlib", lc "socketserver", lc "threading", lc "multiprocessing",
   lc "asyncio", lc "concurrent", lc "ctypes", lc "imp", lc "importlib",
   lc "__import__", lc "exec", lc "eval", lc "file", lc "open", lc "input",
   lc "raw_input"]

/-- Module-name extraction `stripped[k:].split()[0].split(".")[0]`. -/
def moduleNameFrom (rest : List Char) : List Char :=
  ((rest.dropWhile isPySpace).takeWhile (fun c => ¬ isPySpace c)).takeWhile (fun c => c ≠ '.')

/-- Model of `_remove_dangerous_imports`: keep import lines whose module is in
the allow-list, drop dangerous and unknown ones, keep everything else. -/
def removeDangerousImports (code : List Char) : List Char :=
  let lines := splitOnChar '\n' code
  let cleaned := lines.filterMap (fun line =>
    let stripped := pyStrip line
    if isImportStmt stripped then
      let module :=
        if (lc "import ").isPrefixOf stripped then moduleNameFrom (stripped.drop 7)
        else moduleNameFrom (stripped.drop 5)
      if module ∈ safeModulesRemoval then some line
      else if module ∈ dangerousModules then none
      else none
    else some line)
  joinSep (lc "\n") cleaned


/-! ## `_setup_secure_execution_environment` (lines 1063-1251)

The imports of the optional scientific libraries can succeed or fail at
runtime, so library availability is a parameter (`LibAvail`, mirroring
`_check_library_availability`).  Environment values are tagged by origin; the
`LibraryNotInstalled` proxy closes over the `available_libraries` list object,
which at any attribute access (necessarily after the build) holds the full
list, so the proxy's error text is rendered against the final list. -/

structure LibAvail where
  pandas : Bool
  numpy : Bool
  matplotlib : Bool
  seaborn : Bool
  plotly : Bool
  scipy : Bool
  deriving DecidableEq, Repr

/-- The `available_libraries` list after the build. -/
def availableLibraries (la : LibAvail) : List String :=
  (if la.pandas then ["pandas (pd)"] else []) ++
  (if la.numpy then ["numpy (np)"] else []) ++
  (if la.matplotlib then ["matplotlib (plt)"] else []) ++
  (if la.seaborn then ["seaborn (sns)"] else []) ++
  (if la.plotly then ["plotly (go, px)"] else []) ++
  (if la.scipy then ["scipy (stats)"] else [])

/-- The `missing_libraries` list after the build. -/
def missingLibraries (la : LibAvail) : List String :=
  (if la.pandas then [] else ["pandas"]) ++
  (if la.numpy then [] else ["numpy"]) ++
  (if la.matplotlib then [] else ["matplotlib"]) ++
  (if la.seaborn then [] else ["seaborn"]) ++
  (if la.plotly then [] else ["plotly"]) ++
  (if la.scipy then [] else ["scipy"])

/-- A value bound in the execution namespace. -/
inductive EnvVal where
  /-- The `__builtins__` dict of safe builtins. -/
  | builtinsDict (names : List String)
  /-- A really imported module (or module attribute such as `pyplot`). -/
  | module (modName : String)
  /-- A `LibraryNotInstalled` proxy instance. -/
  | notInstalled (library_name : String)
  /-- The plotly binding `{"graph_objects": go, "express": px}`. -/
  | plotlyDict
  /-- A frappe function such as `get_doc`. -/
  | frappeFn (fnName : String)
  /-- The `ReadOnlyDatabase` wrapper. -/
  | readOnlyDb
  /-- The current user string. -/
  | userStr (u : String)
  /-- The `FrappeAssistantAPI` tools facade. -/
  | toolsApi (u : String)
  /-- A list of strings (`_available_libraries` / `_missing_libraries`). -/
  | strList (l : List String)
  deriving DecidableEq, Repr

/-- Names of the safe builtins subset (lines 1069-1106). -/
def safeBuiltinNames : List String :=
  ["len", "str", "int", "float", "bool", "list", "dict", "tuple", "set",
   "range", "enumerate", "zip", "map", "filter", "sorted", "sum", "min",
   "max", "abs", "round", "print", "type", "isinstance", "hasattr",
   "getattr", "Exception", "ValueError", "TypeError", "KeyError",
   "IndexError", "AttributeError", "NameError", "ZeroDivisionError",
   "StopIteration"]

/-- Model of `_setup_secure_execution_environment`: the namespace built by the
successive `env` updates, in source order. -/
def setupSecureExecutionEnvironment (current_user : String) (la : LibAvail) :
    List (String × EnvVal) :=
  [("__builtins__", EnvVal.builtinsDict safeBuiltinNames),
   ("math", EnvVal.module "math"), ("statistics", EnvVal.module "statistics"),
   ("decimal", EnvVal.module "decimal"), ("fractions", EnvVal.module "fractions"),
   ("datetime", EnvVal.module "datetime"), ("json", EnvVal.module "json"),
   ("re", EnvVal.module "re"), ("random", EnvVal.module "random")] ++
  (if la.pandas then [("pd", EnvVal.module "pandas"), ("pandas", EnvVal.module "pandas")]
   else [("pd", EnvVal.notInstalled "pandas"), ("pandas", EnvVal.notInstalled "pandas")]) ++
  (if la.numpy then [("np", EnvVal.module "numpy"), ("numpy", EnvVal.module "numpy")]
   else [("np", EnvVal.notInstalled "numpy"), ("numpy", EnvVal.notInstalled "numpy")]) ++
  (if la.matplotlib then [("plt", EnvVal.module "matplotlib.pyplot"), ("matplotlib", EnvVal.module "matplotlib.pyplot")]
   else [("plt", EnvVal.notInstalled "matplotlib"), ("matplotlib", EnvVal.notInstalled "matplotlib")]) ++
  (if la.seaborn then [("sns", EnvVal.module "seaborn"), ("seaborn", EnvVal.module "seaborn")]
   else [("sns", EnvVal.notInstalled "seaborn"), ("seaborn", EnvVal.notInstalled "seaborn")]) ++
  (if la.plotly then [("go", EnvVal.module "plotly.graph_objects"), ("px", EnvVal.module "plotly.express"), ("plotly", EnvVal.plotlyDict)]
   else []) ++
  (if la.scipy then [("scipy", EnvVal.module "scipy"), ("stats", EnvVal.module "scipy.stats")]
   else []) ++
  [("frappe", EnvVal.module "frappe"),
   ("get_doc", EnvVal.frappeFn "get_doc"), ("get_list", EnvVal.frappeFn "get_list"),
   ("get_all", EnvVal.frappeFn "get_all"), ("get_single", EnvVal.frappeFn "get_single"),
   ("db", EnvVal.readOnlyDb),
   ("current_user", EnvVal.userStr current_user),
   ("tools", EnvVal.toolsApi current_user),
   ("_available_libraries", EnvVal.strList (availableLibraries la)),
   ("_missing_libraries", EnvVal.strList (missingLibraries la))]

/-- Dict lookup over the built namespace (later `env.update` entries win; all
keys here are in fact distinct). -/
def envLookup (env : List (String × EnvVal)) (key : String) : Option EnvVal :=
  (env.reverse.find? (fun p => p.1 = key)).map (fun p => p.2)

/-- Rendering of `", ".join(available_libraries)` with the empty-list fallback. -/
def availListText (la : LibAvail) : List Char :=
  if availableLibraries la = [] then lc "None (data science libraries)"
  else joinSep (lc ", ") ((availableLibraries la).map String.data)

/-- Message of the `ImportError` raised by `LibraryNotInstalled.__getattr__`
(lines 1141-1150); independent of the accessed attribute name. -/
def libraryNotInstalledGetattr (library_name : String) (la : LibAvail) : List Char :=
  lc "❌ " ++ library_name.data ++ lc " is not installed in this environment.\n\n" ++
  lc "💡 Alternative solutions:\n" ++
  lc "   • Use frappe.get_all() for data queries and manipulation\n" ++
  lc "   • Use generate_report tool for business analytics and reporting\n" ++
  lc "   • Use Python\x27s built-in modules (math, statistics) for calculations\n" ++
  lc "   • Contact your system administrator to install " ++ library_name.data ++ lc "\n\n" ++
  lc "📚 Available libraries: " ++ availListText la

/-! ## `_serialize_variable` (lines 1415-1440) and variable extraction -/

/-- Scalar elements of modelled containers. -/
inductive PyScalar where
  | sInt (n : Int)
  | sBool (b : Bool)
  | sStr (s : List Char)
  deriving DecidableEq, Repr

/-- Python values left in the namespace after `exec`.  Objects exposing the
pandas-style conversions carry their converted form; other objects carry the
text of `str(value)`.  Containers are modelled one level deep, which is all
the claims inspect. -/
inductive PyVal where
  | pyInt (n : Int)
  | pyBool (b : Bool)
  | pyStr (s : List Char)
  | pyList (elems : List PyScalar)
  | pyDict (entries : List (List Char × PyScalar))
  /-- Object with a `to_dict` method (DataFrame/Series-like). -/
  | withToDict (d : List (List Char × PyScalar))
  /-- Object with a `to_list`/`tolist` method (Index/ndarray-like). -/
  | withToList (l : List PyScalar)
  /-- Any other object, carrying `str(value)`. -/
  | otherObj (strForm : List Char)
  deriving DecidableEq, Repr

/-- Model of `_serialize_variable`: pandas-style conversions first, basic types
pass through, everything else becomes `str(value)`.  (Its internal
`try/except` fallback never fires in this value model.) -/
def serializeVariable : PyVal → PyVal
  | .withToDict d => .pyDict d
  | .withToList l => .pyList l
  | .pyInt n => .pyInt n
  | .pyBool b => .pyBool b
  | .pyStr s => .pyStr s
  | .pyList elems => .pyList elems
  | .pyDict entries => .pyDict entries
  | .otherObj s => .pyStr s

/-- The `excluded_vars` set of `_execute_code_with_timeout` (lines 490-529). -/
def excludedVars : List String :=
  ["frappe", "pd", "np", "plt", "sns", "data", "current_user", "db",
   "get_doc", "get_list", "get_all", "get_single", "math", "datetime",
   "json", "re", "random", "statistics", "decimal", "fractions",
   "pandas", "numpy", "matplotlib", "seaborn", "plotly", "scipy", "stats",
   "go", "px", "__builtins__", "__name__", "__doc__", "__package__",
   "__loader__", "__spec__", "__annotations__", "__cached__"]

/-- Python `name.startswith("_")`, computed on the character list. -/
def startsWithUnderscore (s : String) : Bool :=
  match s.data with
  | '_' :: _ => true
  | _ => false

/-- Variable filter of the extraction loop: not underscore-prefixed, not in
`excluded_vars`, not a key of the `__builtins__` dict. -/
def varFilterOk (name : String) : Bool :=
  ¬ startsWithUnderscore name ∧ name ∉ excludedVars ∧ name ∉ safeBuiltinNames

/-- Extraction of user-defined variables plus explicitly requested ones
(lines 531-551). -/
def extractVariables (globalsAfter : List (String × PyVal))
    (return_variables : List String) : List (String × PyVal) :=
  let base := globalsAfter.foldl
    (fun acc p => if varFilterOk p.1 then acc ++ [(p.1, serializeVariable p.2)] else acc) []
  return_variables.foldl
    (fun acc name =>
      match globalsAfter.lookup name with
      | some v => if (acc.lookup name).isSome then acc else acc ++ [(name, serializeVariable v)]
      | none => acc) base

/-! ## `_execute_code_with_timeout` (lines 445-641) and `_enhance_error_message`
(lines 1442-1532)

The run of `exec(code, execution_globals)` is an oracle: it either finishes
with the final globals and the captured stdout/stderr text, or raises.  When it
raises, `output = stdout_capture.getvalue()` on line 483 has not run, so the
Python local `output` still holds its initial `""` in every error handler. -/

/-- Exception classes that can leave `exec`. -/
inductive ExecExc where
  /-- `UnicodeEncodeError` with the failing position and code point. -/
  | unicodeEncode (start : Nat) (charCode : Nat)
  /-- Any other `Exception`, carrying `str(e)`. -/
  | err (msg : List Char)
  deriving DecidableEq, Repr

/-- Outcome of `exec(code, execution_globals)`. -/
inductive ExecOutcome where
  /-- Normal completion: final globals (user entries), captured stdout, stderr. -/
  | finished (globalsAfter : List (String × PyVal)) (stdout stderr : List Char)
  /-- An exception escaped `exec`: the exception, the globals at that moment,
  `traceback.format_exc()`, and the text already written to stdout/stderr. -/
  | raised (exc : ExecExc) (globalsAtFailure : List (String × PyVal))
      (tb : List Char) (stdoutSoFar stderrSoFar : List Char)
  deriving DecidableEq, Repr

/-- Hex rendering `f"{n:04x}"`. -/
def hex4 (n : Nat) : List Char :=
  let ds := Nat.toDigits 16 n
  List.replicate (4 - ds.length) '0' ++ ds

/-- Execution metadata of the result (`execution_info`).  The success shape has
the four keys of lines 559-564; the failure shape only the two of lines
586-589.  No shape carries the timeout. -/
inductive ExecInfo where
  | full (lines_executed : Nat) (variables_returned : Nat)
      (execution_id : Option Nat) (executed_by : String)
  | brief (execution_id : Option Nat) (executed_by : String)
  deriving DecidableEq, Repr

/-- Structured result dictionary returned to the caller.  Keys a given Python
dict does not carry are `none`/`false`/empty here. -/
structure ToolResult where
  success : Bool
  error : Option (List Char) := none
  output : List Char := []
  varsOut : List (String × PyVal) := []
  user_context : Option String := none
  pattern_matched : Option (List Char) := none
  security_violation : Bool := false
  security_error : Bool := false
  unicode_error : Bool := false
  traceback : Option (List Char) := none
  execution_info : Option ExecInfo := none
  reason : Option (List Char) := none
  solution : Option (List Char) := none
  alternative_code : Option (List Char) := none
  available_alternatives : Option (List String) := none
  debug_tip : Option (List Char) := none
  available_libraries : Option (List String) := none
  missing_libraries : Option (List String) := none
  help : Option (List Char) := none
  warning : Option (List Char) := none
  deriving DecidableEq, Repr

/-- One entry of the `error_enhancements` table. -/
structure Enhancement where
  reason : List Char
  solution : List Char
  alternative_code : Option (List Char) := none
  available_alternatives : Option (List String) := none
  hasDebugTip : Bool := false
  deriving DecidableEq, Repr

/-- The ordered `error_enhancements` table (lines 1448-1497). -/
def errorEnhancements : List (List Char × Enhancement) :=
  [(lc "name \x27pd\x27 is not defined",
    { reason := lc "pandas library is not available in this environment"
      solution := lc "Use Frappe\x27s native data tools instead"
      alternative_code := some (lc "# Instead of pandas, use:\ndata = frappe.get_all(\x27DocType\x27, fields=[\x27*\x27], limit=100)\n# Or use the generate_report tool for analytics")
      available_alternatives := some ["frappe.get_all()", "frappe.get_list()", "generate_report tool"] }),
   (lc "name \x27np\x27 is not defined",
    { reason := lc "numpy library is not available in this environment"
      solution := lc "Use Python\x27s math or statistics modules for calculations"
      alternative_code := some (lc "# Instead of numpy, use:\nimport math\nimport statistics\n# Example: statistics.mean([1,2,3]) instead of np.mean([1,2,3])")
      available_alternatives := some ["math module", "statistics module"] }),
   (lc "name \x27plt\x27 is not defined",
    { reason := lc "matplotlib library is not available in this environment"
      solution := lc "Visualization is not supported without matplotlib"
      alternative_code := some (lc "# Contact your administrator to install matplotlib for visualization support") }),
   (lc "KeyError",
    { reason := lc "Column or key doesn\x27t exist in the DataFrame/dict"
      solution := lc "Check available columns/keys before accessing"
      alternative_code := some (lc "# Check DataFrame columns:\nprint(df.columns.tolist())\n# Or check dict keys:\nprint(list(my_dict.keys()))")
      hasDebugTip := true }),
   (lc "\x27DataFrame\x27 object has no attribute \x27append\x27",
    { reason := lc "df.append() was deprecated in pandas 2.0"
      solution := lc "Use pd.concat() instead (this should have been auto-fixed)"
      alternative_code := some (lc "# Instead of:\n# df = df.append(new_row, ignore_index=True)\n# Use:\ndf = pd.concat([df, new_row], ignore_index=True)") }),
   (lc "ValueError",
    { reason := lc "Value error - often due to array length mismatch or invalid value"
      solution := lc "Check array shapes and data types"
      alternative_code := some (lc "# Check shapes:\nprint(f\x27Shape: \x7bdf.shape\x7d\x27)\nprint(f\x27Length: \x7blen(my_list)\x7d\x27)") }),
   (lc "AttributeError",
    { reason := lc "Attribute doesn\x27t exist on the object"
      solution := lc "Check object type and available methods"
      alternative_code := some (lc "# Check object type and methods:\nprint(type(obj))\nprint(dir(obj))") }),
   (lc "IndexError",
    { reason := lc "Index out of range"
      solution := lc "Check list/array length before accessing by index"
      alternative_code := some (lc "# Check length first:\nif len(my_list) > index:\n    value = my_list[index]") }),
   (lc "TypeError",
    { reason := lc "Type error - operation not supported for these types"
      solution := lc "Check data types and convert if needed"
      alternative_code := some (lc "# Check and convert types:\nprint(type(value))\nvalue = int(value)  # or str(value), float(value), etc.") })]

/-- The KeyError `debug_tip`:
`f"Available variables: {', '.join([k for k in env.keys() if not k.startswith('_')])[:200]}..."`. -/
def debugTipText (envKeys : List String) : List Char :=
  lc "Available variables: " ++
  (joinSep (lc ", ") ((envKeys.filter (fun k => ¬ startsWithUnderscore k)).map String.data)).take 200 ++
  lc "..."

/-- Model of `_enhance_error_message`: first table entry whose pattern occurs
case-insensitively in the message wins; otherwise the generic help entry. -/
def enhanceErrorMessage (error_msg error_traceback : List Char)
    (envKeys : List String) (la : LibAvail) : ToolResult :=
  match errorEnhancements.find? (fun p => isInfixL (lowerL p.1) (lowerL error_msg)) with
  | some (_, e) =>
    { success := false
      error := some error_msg
      reason := some e.reason
      solution := some e.solution
      traceback := some error_traceback
      available_libraries := some (availableLibraries la)
      missing_libraries := some (missingLibraries la)
      alternative_code := e.alternative_code
      available_alternatives := e.available_alternatives
      debug_tip := if e.hasDebugTip then some (debugTipText envKeys) else none }
  | none =>
    { success := false
      error := some error_msg
      traceback := some error_traceback
      available_libraries := some (availableLibraries la)
      missing_libraries := some (missingLibraries la)
      help := some (lc "Check that all required libraries are available and data types are correct. Use print() statements to debug variable values and types.") }

/-- Error text of the dedicated `UnicodeEncodeError` handler (lines 569-574). -/
def unicodeRunErrorMsg (start : Nat) (charCode : Nat) : List Char :=
  lc "🚫 Unicode Error: Code contains characters that cannot be encoded in UTF-8. Character \x27\\u" ++
  hex4 charCode ++ lc "\x27 at position " ++ natRepr start ++
  lc " cannot be processed. Please remove or replace non-standard Unicode characters."

/-- Error text of the surrogate special case of the generic handler
(lines 599-612). -/
def surrogateRunErrorMsg (error_msg : List Char) : List Char :=
  lc "Unicode encoding error: " ++ error_msg ++
  lc "\n\n🚨 This error occurs when your code contains invalid Unicode characters (surrogates).\n💡 Common causes:\n   • Copy-pasting code from Word documents, PDFs, or certain web pages\n   • Data with mixed encodings or corrupted text\n   • Special characters that aren\x27t valid UTF-8\n\n✅ Solutions:\n   • Re-type the code manually instead of copy-pasting\n   • Check for unusual characters around position 1030 in your code\n   • Use plain text editors when preparing code"

/-- Model of `_execute_code_with_timeout`.  The `timeout` argument is accepted
and never used, exactly as in the source.  On the exception paths the `output`
field is the Python local `output`, still `""` because
`stdout_capture.getvalue()` only runs after a successful `exec`. -/
def executeCodeWithTimeout (code : List Char) (timeout : Int)
    (outcome : ExecOutcome) (capture_output : Bool)
    (return_variables : List String) (current_user : String)
    (execId : Option Nat) (la : LibAvail) : ToolResult :=
  match outcome with
  | .finished globalsAfter stdout stderr =>
    let output := if capture_output then stdout else []
    let errorText := if capture_output then stderr else []
    let vars := extractVariables globalsAfter return_variables
    { success := true
      output := output
      error := some errorText
      varsOut := vars
      user_context := some current_user
      execution_info := some (.full (splitOnChar '\n' code).length vars.length
        execId current_user) }
  | .raised exc _globalsAtFailure tb _stdoutSoFar _stderrSoFar =>
    match exc with
    | .unicodeEncode start charCode =>
      { success := false
        error := some (unicodeRunErrorMsg start charCode)
        traceback := some tb
        output := []
        unicode_error := true
        user_context := some current_user
        execution_info := some (.brief execId current_user) }
    | .err msg =>
      if isInfixL (lc "surrogates not allowed") msg ∨ isInfixL (lc "UnicodeEncodeError") msg then
        { success := false
          error := some (surrogateRunErrorMsg msg)
          traceback := some tb
          output := []
          unicode_error := true
          user_context := some current_user
          execution_info := some (.brief execId current_user) }
      else
        { enhanceErrorMessage msg tb (_globalsAtFailure.map (fun p => p.1)) la with
          output := []
          varsOut := []
          user_context := some current_user
          execution_info := some (.brief execId current_user) }

/-! ## `ExecutePythonCode.execute` (lines 363-443)

Effects that are outside the translated text are oracles: the
`secure_user_context`/`audit_code_execution` managers (which may raise
`frappe.PermissionError`), `_fetch_data_from_query`,
`_preprocess_code_for_common_errors` (pure regex rewriting whose every branch
returns `success=True` with rewritten code plus the fixes list), and `exec`
itself.  Exceptions are values of `PyExc`; the `try` of lines 377-443 catches
`frappe.PermissionError` first and `Exception` second, which covers every
`PyExc`. -/

/-- A raised Python exception at the `execute` boundary. -/
inductive PyExc where
  | permission (msg : List Char)
  | general (msg : List Char)
  deriving DecidableEq, Repr

/-- The arguments dictionary of `execute` (with `code` a string). -/
structure Args where
  code : List Char
  /-- Whether a `data_query` key is present and truthy. -/
  data_query : Bool := false
  timeout : Option Int := none
  capture_output : Bool := true
  return_variables : List String := []

/-- The runtime effects `execute` depends on. -/
structure Oracles where
  /-- Entering `secure_user_context` + `audit_code_execution`: the current user
  and the audit `execution_id`, or a raised exception. -/
  ctx : Except PyExc (String × Option Nat)
  /-- Library availability snapshot of the process. -/
  libAvail : LibAvail
  /-- Outcome of `_fetch_data_from_query(data_query)` (its value lands in
  `execution_globals["data"]`, reflected in the exec oracle). -/
  fetch : Except PyExc PyVal
  /-- `_preprocess_code_for_common_errors`: rewritten code and fixes applied. -/
  preprocessFn : List Char → List Char × List String
  /-- Outcome of `exec` on the final code against the built environment. -/
  execFn : List Char → ExecOutcome

/-- Bridge applying `_sanitize_unicode` to a `List Char` code string (a Lean
string never carries lone surrogates, so the code points round-trip). -/
def sanitizeUnicodeOnChars (code : List Char) : SanitizeResult :=
  sanitizeUnicode (code.map Char.toNat)

/-- The `timeout` value used by `execute`: `arguments.get("timeout", 30)`. -/
def usedTimeout (args : Args) : Int := args.timeout.getD 30

/-- Result dict of line 375 (`"No code provided"`). -/
def noCodeResult : ToolResult :=
  { success := false, error := some (lc "No code provided"), output := [], varsOut := [] }

/-- Conversion of a scan failure dict into the returned result (the scan's
dict is returned as-is on line 388). -/
def scanResultToTool (r : ScanResult) : ToolResult :=
  { success := r.success
    error := r.error
    pattern_matched := r.pattern_matched
    security_violation := r.security_violation
    output := []
    varsOut := [] }

/-- Conversion of an import-check failure dict (line 881). -/
def checkResultToTool (r : CheckImportsResult) : ToolResult :=
  { success := r.success, error := r.error, output := [], varsOut := [] }

/-- Conversion of a sanitize failure dict (lines 1385-1392). -/
def sanitizeResultToTool (r : SanitizeResult) : ToolResult :=
  { success := r.success, error := r.error, output := [], varsOut := [],
    unicode_error := r.unicode_error }

/-- Body of the `try` block of `execute` (lines 377-437). -/
def executeInner (args : Args) (o : Oracles) : Except PyExc ToolResult :=
  match o.ctx with
  | .error e => .error e
  | .ok (current_user, execId) =>
    let security := scanForDangerousOperations args.code
    if security.success = false then .ok (scanResultToTool security)
    else
      let importCheck := checkAndHandleImports args.code
      if importCheck.success = false then .ok (checkResultToTool importCheck)
      else
        let code1 := removeDangerousImports importCheck.code
        let unicodeCheck := sanitizeUnicodeOnChars code1
        if unicodeCheck.success = false then .ok (sanitizeResultToTool unicodeCheck)
        else
          let code2 := (unicodeCheck.code.map Char.ofNat)
          let pre := o.preprocessFn code2
          let code3 := pre.1
          let envBuilt := setupSecureExecutionEnvironment current_user o.libAvail
          if args.data_query then
            match o.fetch with
            | .error e =>
              let msg := match e with | .permission m => m | .general m => m
              .ok { success := false
                    error := some (lc "Error fetching data: " ++ msg)
                    output := [], varsOut := []
                    user_context := some current_user }
            | .ok _ =>
              .ok (executeCodeWithTimeout code3 (usedTimeout args) (o.execFn code3)
                args.capture_output args.return_variables current_user execId o.libAvail)
          else
            .ok (executeCodeWithTimeout code3 (usedTimeout args) (o.execFn code3)
              args.capture_output args.return_variables current_user execId o.libAvail)

/-- Model of `ExecutePythonCode.execute`: the empty-code early return happens
before the `try`; the `except frappe.PermissionError` / `except Exception`
handlers convert every raised exception into a structured dict. -/
def executeModel (args : Args) (o : Oracles) : Except PyExc ToolResult :=
  if pyStrip args.code = [] then .ok noCodeResult
  else
    match executeInner args o with
    | .ok r => .ok r
    | .error (.permission m) =>
      .ok { success := false, error := some m, output := [], varsOut := [],
            security_error := true }
    | .error (.general m) =>
      .ok { success := false, error := some (lc "Execution failed: " ++ m),
            output := [], varsOut := [] }

/-- Decidable equality for `Except`, used to evaluate concrete pipeline runs. -/
instance instDecEqExcept {ε α : Type} [DecidableEq ε] [DecidableEq α] :
    DecidableEq (Except ε α) := fun a b =>
  match a, b with
  | .error e₁, .error e₂ =>
    if h : e₁ = e₂ then .isTrue (by rw [h]) else .isFalse (by simp [h])
  | .ok x, .ok y =>
    if h : x = y then .isTrue (by rw [h]) else .isFalse (by simp [h])
  | .error _, .ok _ => .isFalse (by simp)
  | .ok _, .error _ => .isFalse (by simp)

/-! # Theorems -/

/-! ## Unicode sanitizer: C7 and C9 -/

lemma cleanChars_fst (code : List Nat) :
    (cleanChars code).1 = code.map (fun c => if isSurrogate c then 0x20 else c) := by
  induction code with
  | nil => rfl
  | cons c cs ih =>
    by_cases h : isSurrogate c <;> simp [cleanChars, h, ih]

lemma cleanChars_snd (code : List Nat) :
    (cleanChars code).2 = code.countP (fun c => isSurrogate c) := by
  induction code with
  | nil => rfl
  | cons c cs ih =>
    by_cases h : isSurrogate c <;> simp [cleanChars, h, ih, List.countP_cons]

lemma cleanChars_encodable (code : List Nat) :
    utf8Encodable (cleanChars code).1 = true := by
  rw [cleanChars_fst]
  simp only [utf8Encodable, List.all_eq_true]
  intro x hx
  obtain ⟨c, _, hc⟩ := List.mem_map.mp hx
  by_cases h : isSurrogate c
  · simp [h] at hc
    simp [← hc, isSurrogate]
  · simp [h] at hc
    simp [← hc, h]

/-- C9: for every input string `_sanitize_unicode` returns success; its fatal
branch (cleaned code still not UTF-8-encodable) is unreachable because the
cleaned string never contains a surrogate. -/
theorem sanitizeUnicode_always_succeeds (code : List Nat) :
    (sanitizeUnicode code).success = true := by
  have h := cleanChars_encodable code
  simp [sanitizeUnicode, h]

/-- C7: on code containing at least one surrogate code point,
`_sanitize_unicode` succeeds, replaces exactly the surrogate positions with a
space and keeps every other character, and reports the exact replacement count
in its warning. -/
theorem sanitizeUnicode_cleans_surrogates (code : List Nat)
    (h : code.any isSurrogate = true) :
    (sanitizeUnicode code).success = true ∧
    (sanitizeUnicode code).code =
      code.map (fun c => if isSurrogate c then 0x20 else c) ∧
    (sanitizeUnicode code).code.length = code.length ∧
    (sanitizeUnicode code).warning =
      some (sanitizeWarning (code.countP (fun c => isSurrogate c))) := by
  have henc := cleanChars_encodable code
  have hcnt : 0 < code.countP (fun c => isSurrogate c) := by
    rw [List.countP_pos_iff]
    obtain ⟨x, hx, hpx⟩ := List.any_eq_true.mp h
    exact ⟨x, hx, by simpa using hpx⟩
  rw [cleanChars_fst] at henc
  simp [sanitizeUnicode, henc, cleanChars_fst, cleanChars_snd, hcnt]

/-- Witness for C7 at the concrete input `"h\ud800i"`. -/
theorem sanitizeUnicode_cleans_surrogates_witness :
    (([104, 0xD800, 105] : List Nat).any isSurrogate = true) ∧
    ((sanitizeUnicode [104, 0xD800, 105]).success = true ∧
     (sanitizeUnicode [104, 0xD800, 105]).code =
       ([104, 0xD800, 105] : List Nat).map (fun c => if isSurrogate c then 0x20 else c) ∧
     (sanitizeUnicode [104, 0xD800, 105]).code.length = ([104, 0xD800, 105] : List Nat).length ∧
     (sanitizeUnicode [104, 0xD800, 105]).warning =
       some (sanitizeWarning (([104, 0xD800, 105] : List Nat).countP (fun c => isSurrogate c)))) :=
  ⟨by decide, sanitizeUnicode_cleans_surrogates [104, 0xD800, 105] (by decide)⟩

/-! ## Timeout handling: C6 -/

lemma executeCodeWithTimeout_timeout_irrelevant (code : List Char) (t : Int)
    (out : ExecOutcome) (cap : Bool) (rv : List String) (u : String)
    (id : Option Nat) (la : LibAvail) :
    executeCodeWithTimeout code t out cap rv u id la =
      executeCodeWithTimeout code 0 out cap rv u id la := by
  cases out <;> rfl

/-- C6 corrected: the `timeout` argument is taken as-is from the arguments
(default 30), and the whole result — execution_info included — is independent
of it: it is neither clamped on the execution path nor stored anywhere in the
result. -/
theorem timeout_advisory_only (args : Args) (o : Oracles) (t : Option Int) :
    usedTimeout args = args.timeout.getD 30 ∧
    executeModel args o = executeModel { args with timeout := t } o := by
  refine ⟨rfl, ?_⟩
  rcases o with ⟨ctx, la, fetch, pre, ex⟩
  rcases args with ⟨code, dq, tt, cap, rv⟩
  unfold executeModel executeInner usedTimeout
  cases ctx with
  | error e => cases e <;> rfl
  | ok p =>
    simp only [executeCodeWithTimeout_timeout_irrelevant]

/-- C6 counterexample: with `timeout = 1000` the value actually used is 1000
(not clamped into 1-300), and the result for `timeout = 1000` is identical to
the result for `timeout = 5` — in particular `execution_info` does not record
the timeout. -/
theorem timeout_not_clamped_counterexample :
    usedTimeout { code := lc "x = 1 + 1", timeout := some 1000 } = 1000 ∧
    ¬ (usedTimeout { code := lc "x = 1 + 1", timeout := some 1000 } ≤ 300) ∧
    executeModel { code := lc "x = 1 + 1", timeout := some 1000 }
        { ctx := .ok ("Administrator", some 7)
          libAvail := ⟨true, true, true, true, true, true⟩
          fetch := .ok (.pyInt 0)
          preprocessFn := fun c => (c, [])
          execFn := fun _ => .finished [("x", .pyInt 2)] [] [] } =
      executeModel { code := lc "x = 1 + 1", timeout := some 5 }
        { ctx := .ok ("Administrator", some 7)
          libAvail := ⟨true, true, true, true, true, true⟩
          fetch := .ok (.pyInt 0)
          preprocessFn := fun c => (c, [])
          execFn := fun _ => .finished [("x", .pyInt 2)] [] [] } := by
  refine ⟨by decide, by decide, by decide⟩

/-! ## Captured output on failure: C5 -/

/-- C5 amended: when the executed script raises, the structured failure result
carries the raw message and a remediation entry (a matched `reason`/`solution`
pair or the generic `help`), but its `output` field is always the empty string:
the captured stdout is read only on the success path, so stdout produced
before the failure is not included. -/
theorem failure_output_is_empty (code : List Char) (t : Int) (msg : List Char)
    (gl : List (String × PyVal)) (tb so se : List Char) (cap : Bool)
    (rv : List String) (u : String) (id : Option Nat) (la : LibAvail)
    (hmsg : ¬ (isInfixL (lc "surrogates not allowed") msg = true ∨
               isInfixL (lc "UnicodeEncodeError") msg = true)) :
    (executeCodeWithTimeout code t (.raised (.err msg) gl tb so se) cap rv u id la).success
        = false ∧
    (executeCodeWithTimeout code t (.raised (.err msg) gl tb so se) cap rv u id la).output
        = [] ∧
    (executeCodeWithTimeout code t (.raised (.err msg) gl tb so se) cap rv u id la).error
        = some msg ∧
    ((executeCodeWithTimeout code t (.raised (.err msg) gl tb so se) cap rv u id la).reason.isSome = true ∨
     (executeCodeWithTimeout code t (.raised (.err msg) gl tb so se) cap rv u id la).help.isSome = true) := by
  simp only [executeCodeWithTimeout]
  rw [if_neg (by simpa using hmsg)]
  unfold enhanceErrorMessage
  cases hfind : errorEnhancements.find?
      (fun p => isInfixL (lowerL p.1) (lowerL msg)) with
  | none => simp [hfind]
  | some e => simp [hfind]

/-- Witness for C5 amended at a concrete raised `KeyError`. -/
theorem failure_output_is_empty_witness :
    (¬ (isInfixL (lc "surrogates not allowed") (lc "KeyError: \x27total\x27") = true ∨
        isInfixL (lc "UnicodeEncodeError") (lc "KeyError: \x27total\x27") = true)) ∧
    ((executeCodeWithTimeout (lc "print(1)\nx = d[\x27total\x27]") 30
        (.raised (.err (lc "KeyError: \x27total\x27")) [] (lc "Traceback") (lc "1\n") [])
        true [] "Administrator" (some 3) ⟨true, true, true, true, true, true⟩).success = false ∧
     (executeCodeWithTimeout (lc "print(1)\nx = d[\x27total\x27]") 30
        (.raised (.err (lc "KeyError: \x27total\x27")) [] (lc "Traceback") (lc "1\n") [])
        true [] "Administrator" (some 3) ⟨true, true, true, true, true, true⟩).output = [] ∧
     (executeCodeWithTimeout (lc "print(1)\nx = d[\x27total\x27]") 30
        (.raised (.err (lc "KeyError: \x27total\x27")) [] (lc "Traceback") (lc "1\n") [])
        true [] "Administrator" (some 3) ⟨true, true, true, true, true, true⟩).error
        = some (lc "KeyError: \x27total\x27") ∧
     ((executeCodeWithTimeout (lc "print(1)\nx = d[\x27total\x27]") 30
        (.raised (.err (lc "KeyError: \x27total\x27")) [] (lc "Traceback") (lc "1\n") [])
        true [] "Administrator" (some 3) ⟨true, true, true, true, true, true⟩).reason.isSome = true ∨
      (executeCodeWithTimeout (lc "print(1)\nx = d[\x27total\x27]") 30
        (.raised (.err (lc "KeyError: \x27total\x27")) [] (lc "Traceback") (lc "1\n") [])
        true [] "Administrator" (some 3) ⟨true, true, true, true, true, true⟩).help.isSome = true)) :=
  ⟨by decide,
   failure_output_is_empty (lc "print(1)\nx = d[\x27total\x27]") 30
     (lc "KeyError: \x27total\x27") [] (lc "Traceback") (lc "1\n") [] true []
     "Administrator" (some 3) ⟨true, true, true, true, true, true⟩ (by decide)⟩

/-- C5 counterexample: a script that wrote `"hi\n"` to stdout and then raised
produces a failure result whose `output` field is empty rather than the
captured `"hi\n"`. -/
theorem failure_output_counterexample :
    (executeCodeWithTimeout (lc "print(\x22hi\x22)\nboom()") 30
        (.raised (.err (lc "NameError: name \x27boom\x27 is not defined")) []
          (lc "Traceback") (lc "hi\n") [])
        true [] "Administrator" (some 3) ⟨true, true, true, true, true, true⟩).success = false ∧
    (executeCodeWithTimeout (lc "print(\x22hi\x22)\nboom()") 30
        (.raised (.err (lc "NameError: name \x27boom\x27 is not defined")) []
          (lc "Traceback") (lc "hi\n") [])
        true [] "Administrator" (some 3) ⟨true, true, true, true, true, true⟩).output = [] ∧
    lc "hi\n" ≠ ([] : List Char) := by
  refine ⟨by decide, by decide, by decide⟩


/-! ## Determinism: C8 -/

lemma ect_proj_exec_id (code : List Char) (t : Int) (out : ExecOutcome)
    (cap : Bool) (rv : List String) (u : String) (id1 id2 : Option Nat)
    (la : LibAvail) :
    (executeCodeWithTimeout code t out cap rv u id1 la).success =
      (executeCodeWithTimeout code t out cap rv u id2 la).success ∧
    (executeCodeWithTimeout code t out cap rv u id1 la).error =
      (executeCodeWithTimeout code t out cap rv u id2 la).error ∧
    (executeCodeWithTimeout code t out cap rv u id1 la).varsOut =
      (executeCodeWithTimeout code t out cap rv u id2 la).varsOut ∧
    (executeCodeWithTimeout code t out cap rv u id1 la).output =
      (executeCodeWithTimeout code t out cap rv u id2 la).output ∧
    (executeCodeWithTimeout code t out cap rv u id1 la).pattern_matched =
      (executeCodeWithTimeout code t out cap rv u id2 la).pattern_matched ∧
    (executeCodeWithTimeout code t out cap rv u id1 la).security_violation =
      (executeCodeWithTimeout code t out cap rv u id2 la).security_violation ∧
    (executeCodeWithTimeout code t out cap rv u id1 la).unicode_error =
      (executeCodeWithTimeout code t out cap rv u id2 la).unicode_error := by
  cases out with
  | finished g s e => simp [executeCodeWithTimeout]
  | raised exc gl tb so se =>
    cases exc with
    | unicodeEncode a b => simp [executeCodeWithTimeout]
    | err m =>
      by_cases h : isInfixL (lc "surrogates not allowed") m = true ∨
          isInfixL (lc "UnicodeEncodeError") m = true
      · simp [executeCodeWithTimeout, h]
      · simp [executeCodeWithTimeout, h]

/-- C8: the pipeline is deterministic.  Two runs of the same arguments with the
same process state (same library availability, fetch outcome, preprocessing and
exec behaviour) — differing only in the per-run audit `execution_id` — return
structured results with identical success flag, error, variables, output and
security/unicode categorisation. -/
theorem pipeline_deterministic (args : Args) (la : LibAvail)
    (fetch : Except PyExc PyVal) (pre : List Char → List Char × List String)
    (ex : List Char → ExecOutcome) (u : String) (id1 id2 : Option Nat) :
    ∃ r1 r2,
      executeModel args ⟨Except.ok (u, id1), la, fetch, pre, ex⟩ = .ok r1 ∧
      executeModel args ⟨Except.ok (u, id2), la, fetch, pre, ex⟩ = .ok r2 ∧
      r1.success = r2.success ∧ r1.error = r2.error ∧ r1.varsOut = r2.varsOut ∧
      r1.output = r2.output ∧ r1.pattern_matched = r2.pattern_matched ∧
      r1.security_violation = r2.security_violation ∧
      r1.unicode_error = r2.unicode_error := by
  unfold executeModel executeInner
  by_cases hstrip : pyStrip args.code = []
  · simp only [hstrip, if_pos]
    exact ⟨noCodeResult, noCodeResult, rfl, rfl, rfl, rfl, rfl, rfl, rfl, rfl, rfl⟩
  · simp only [hstrip, if_neg, not_false_iff]
    by_cases hsec : (scanForDangerousOperations args.code).success = false
    · simp only [hsec, if_pos]
      exact ⟨_, _, rfl, rfl, rfl, rfl, rfl, rfl, rfl, rfl, rfl⟩
    · simp only [hsec, if_neg, not_false_iff]
      by_cases himp : (checkAndHandleImports args.code).success = false
      · simp only [himp, if_pos]
        exact ⟨_, _, rfl, rfl, rfl, rfl, rfl, rfl, rfl, rfl, rfl⟩
      · simp only [himp, if_neg, not_false_iff]
        by_cases huni : (sanitizeUnicodeOnChars
            (removeDangerousImports (checkAndHandleImports args.code).code)).success = false
        · simp only [huni, if_pos]
          exact ⟨_, _, rfl, rfl, rfl, rfl, rfl, rfl, rfl, rfl, rfl⟩
        · simp only [huni, if_neg, not_false_iff]
          by_cases hdq : args.data_query
          · simp only [hdq, if_pos]
            cases fetch with
            | error e =>
              exact ⟨_, _, rfl, rfl, rfl, rfl, rfl, rfl, rfl, rfl, rfl⟩
            | ok v =>
              refine ⟨_, _, rfl, rfl, ?_⟩
              exact ect_proj_exec_id _ _ _ _ _ _ id1 id2 _
          · simp only [hdq, if_neg, not_false_iff]
            refine ⟨_, _, rfl, rfl, ?_⟩
            exact ect_proj_exec_id _ _ _ _ _ _ id1 id2 _

/-! ## Exception containment: C3 -/

lemma scan_fail_error_isSome (code : List Char)
    (h : (scanForDangerousOperations code).success = false) :
    (scanForDangerousOperations code).error.isSome = true := by
  unfold scanForDangerousOperations at *
  cases hf : dangerousPatterns.find? (fun p => searchFound p.1 none code) with
  | none => rw [hf] at h; simp at h
  | some e => rcases e with ⟨m, pat, msg⟩; simp

lemma check_fail_error_isSome (code : List Char)
    (h : (checkAndHandleImports code).success = false) :
    (checkAndHandleImports code).error.isSome = true := by
  simp only [checkAndHandleImports] at h ⊢
  by_cases h1 : importLinesOf (splitOnChar '\n' code) ≠ []
  · rw [if_pos h1] at h ⊢
    by_cases h2 : problematicImportsOf (splitOnChar '\n' code) ≠ []
    · rw [if_pos h2]
      simp
    · rw [if_neg h2] at h
      simp at h
  · rw [if_neg h1] at h
    simp at h

lemma sanitize_success_aux (code : List Nat) :
    (sanitizeUnicode code).success = true := by
  have h := cleanChars_encodable code
  simp [sanitizeUnicode, h]

lemma ect_fail_error_isSome (code : List Char) (t : Int) (out : ExecOutcome)
    (cap : Bool) (rv : List String) (u : String) (id : Option Nat)
    (la : LibAvail)
    (h : (executeCodeWithTimeout code t out cap rv u id la).success = false) :
    (executeCodeWithTimeout code t out cap rv u id la).error.isSome = true := by
  cases out with
  | finished g s e => simp [executeCodeWithTimeout]
  | raised exc gl tb so se =>
    cases exc with
    | unicodeEncode a b => simp [executeCodeWithTimeout]
    | err m =>
      by_cases hm : isInfixL (lc "surrogates not allowed") m = true ∨
          isInfixL (lc "UnicodeEncodeError") m = true
      · simp [executeCodeWithTimeout, hm]
      · simp only [executeCodeWithTimeout]
        rw [if_neg (by simpa using hm)]
        unfold enhanceErrorMessage
        cases hfind : errorEnhancements.find?
            (fun p => isInfixL (lowerL p.1) (lowerL m)) with
        | none => simp [hfind]
        | some e => simp [hfind]

/-- C3: for every arguments dictionary with a string `code` field, and every
behaviour of the context manager, data fetch and executed script, `execute`
returns a structured result value — never a raised exception — and every
failure result carries an error field. -/
theorem execute_never_raises (args : Args) (o : Oracles) :
    ∃ r, executeModel args o = .ok r ∧
      (r.success = false → r.error.isSome = true) := by
  unfold executeModel executeInner
  by_cases hstrip : pyStrip args.code = []
  · simp only [hstrip, if_pos]
    exact ⟨noCodeResult, rfl, fun _ => rfl⟩
  · simp only [hstrip, if_neg, not_false_iff]
    cases hctx : o.ctx with
    | error e =>
      cases e with
      | permission m => exact ⟨_, rfl, fun _ => rfl⟩
      | general m => exact ⟨_, rfl, fun _ => rfl⟩
    | ok p =>
      rcases p with ⟨u, eid⟩
      by_cases hsec : (scanForDangerousOperations args.code).success = false
      · simp only [hsec, if_pos]
        refine ⟨_, rfl, fun _ => ?_⟩
        exact scan_fail_error_isSome args.code hsec
      · simp only [hsec, if_neg, not_false_iff]
        by_cases himp : (checkAndHandleImports args.code).success = false
        · simp only [himp, if_pos]
          refine ⟨_, rfl, fun _ => ?_⟩
          exact check_fail_error_isSome args.code himp
        · simp only [himp, if_neg, not_false_iff]
          have huni : ¬ ((sanitizeUnicodeOnChars
              (removeDangerousImports (checkAndHandleImports args.code).code)).success = false) := by
            rw [sanitizeUnicodeOnChars, sanitize_success_aux]
            simp
          simp only [huni, if_neg, not_false_iff]
          by_cases hdq : args.data_query
          · simp only [hdq, if_pos]
            cases o.fetch with
            | error e => exact ⟨_, rfl, fun _ => rfl⟩
            | ok v =>
              refine ⟨_, rfl, fun hfail => ?_⟩
              exact ect_fail_error_isSome _ _ _ _ _ _ _ _ hfail
          · simp only [hdq, if_neg, not_false_iff]
            refine ⟨_, rfl, fun hfail => ?_⟩
            exact ect_fail_error_isSome _ _ _ _ _ _ _ _ hfail

/-- Witness for C3 at a concrete request whose script raises. -/
theorem execute_never_raises_witness :
    ∃ r, executeModel { code := lc "boom()" }
        { ctx := Except.ok ("Administrator", some 11)
          libAvail := ⟨true, true, true, true, true, true⟩
          fetch := Except.ok (.pyInt 0)
          preprocessFn := fun c => (c, [])
          execFn := fun _ => .raised (.err (lc "NameError: name \x27boom\x27 is not defined"))
            [] (lc "Traceback") [] [] } = .ok r ∧
      (r.success = false → r.error.isSome = true) :=
  execute_never_raises _ _


/-! ## String lemmas shared by the remaining claims -/

lemma isInfixL_iff (pat s : List Char) :
    isInfixL pat s = true ↔ pat <:+: s := by
  unfold isInfixL
  rw [List.any_eq_true]
  constructor
  · rintro ⟨t, ht, hpre⟩
    rw [List.mem_tails] at ht
    rw [List.isPrefixOf_iff_prefix] at hpre
    exact List.infix_iff_prefix_suffix.mpr ⟨t, hpre, ht⟩
  · intro h
    obtain ⟨t, hpre, hsuf⟩ := List.infix_iff_prefix_suffix.mp h
    exact ⟨t, (List.mem_tails _ _).mpr hsuf, List.isPrefixOf_iff_prefix.mpr hpre⟩

lemma infix_append_of_infix_right {l t : List Char} (s : List Char)
    (h : l <:+: t) : l <:+: s ++ t := by
  obtain ⟨a, b, hab⟩ := h
  exact ⟨s ++ a, b, by rw [← hab]; simp⟩

lemma infix_append_of_infix_left {l s : List Char} (t : List Char)
    (h : l <:+: s) : l <:+: s ++ t := by
  obtain ⟨a, b, hab⟩ := h
  exact ⟨a, b ++ t, by rw [← hab]; simp⟩

lemma infix_joinSep_of_mem {α : Type} (f : α → List Char) (sep : List Char)
    (l : List α) (x : α) (hx : x ∈ l) :
    f x <:+: joinSep sep (l.map f) := by
  induction l with
  | nil => cases hx
  | cons y ys ih =>
    cases hx with
    | head =>
      cases ys with
      | nil => exact List.infix_refl _
      | cons z zs =>
        simp only [List.map_cons, joinSep]
        exact infix_append_of_infix_left _
          (infix_append_of_infix_left _ (List.infix_refl _))
    | tail _ hmem =>
      have := ih hmem
      cases ys with
      | nil => cases hmem
      | cons z zs =>
        simp only [List.map_cons, joinSep] at this ⊢
        rw [List.append_assoc]
        exact infix_append_of_infix_right _ (infix_append_of_infix_right _ this)

lemma stripRight_eq_nil_iff (l : List Char) :
    stripRight l = [] ↔ ∀ c ∈ l, isPySpace c = true := by
  unfold stripRight
  rw [List.reverse_eq_nil_iff, List.dropWhile_eq_nil_iff]
  constructor
  · intro h c hc
    exact h c (List.mem_reverse.mpr hc)
  · intro h c hc
    exact h c (List.mem_reverse.mp hc)

lemma pyStrip_eq_nil_all_space (l : List Char)
    (h : pyStrip l = []) : ∀ c ∈ l, isPySpace c = true := by
  unfold pyStrip stripLeft at h
  rw [stripRight_eq_nil_iff] at h
  intro c hc
  rw [← List.takeWhile_append_dropWhile (p := isPySpace) (l := l)] at hc
  rcases List.mem_append.mp hc with h1 | h2
  · exact List.mem_takeWhile_imp h1
  · exact h c h2

lemma pyStrip_ne_nil_of_mem {c : Char} {l : List Char}
    (hc : c ∈ l) (hw : isPySpace c = false) : pyStrip l ≠ [] := by
  intro h
  have := pyStrip_eq_nil_all_space l h c hc
  rw [hw] at this
  cases this

/-! ## Scanner lemmas: C2 -/

lemma eatCI_some_drop {pat s r : List Char} (h : eatCI pat s = some r) :
    r = s.drop pat.length := by
  induction pat generalizing s with
  | nil => simp [eatCI] at h; simp [h]
  | cons p ps ih =>
    cases s with
    | nil => simp [eatCI] at h
    | cons c cs =>
      simp only [eatCI] at h
      by_cases hc : lowerC c = lowerC p
      · rw [if_pos hc] at h
        simpa using ih h
      · rw [if_neg hc] at h
        cases h

lemma eatCI_append {a b s r : List Char} (h : eatCI (a ++ b) s = some r) :
    ∃ m, eatCI a s = some m ∧ eatCI b m = some r := by
  induction a generalizing s with
  | nil => exact ⟨s, rfl, by simpa using h⟩
  | cons p ps ih =>
    cases s with
    | nil => simp [eatCI] at h
    | cons c cs =>
      simp only [List.cons_append, eatCI] at h ⊢
      by_cases hc : lowerC c = lowerC p
      · rw [if_pos hc] at h ⊢
        exact ih h
      · rw [if_neg hc] at h
        cases h

/-- A matcher that ignores the previous character fires under `searchFound`
iff it fires on some suffix. -/
lemma searchFound_of_suffix (m : PatMatcher)
    (hm : ∀ p q t, m p t = m q t) {t s : List Char}
    (hsuf : t <:+ s) (hfire : m none t = true) :
    ∀ prev, searchFound m prev s = true := by
  induction s with
  | nil =>
    intro prev
    have : t = [] := List.suffix_nil.mp hsuf
    rw [this] at hfire
    simp [searchFound]
    rw [hm prev none []]
    exact hfire
  | cons c cs ih =>
    intro prev
    rcases List.suffix_cons_iff.mp hsuf with heq | htail
    · rw [heq] at hfire
      simp [searchFound]
      left
      rw [hm prev none (c :: cs)]
      exact hfire
    · simp [searchFound]
      right
      exact ih htail (some c)

lemma searchFound_to_suffix (m : PatMatcher) :
    ∀ prev s, searchFound m prev s = true →
      ∃ t p, t <:+ s ∧ m p t = true := by
  intro prev s
  induction s generalizing prev with
  | nil =>
    intro h
    exact ⟨[], prev, List.suffix_refl _, by simpa [searchFound] using h⟩
  | cons c cs ih =>
    intro h
    simp only [searchFound, Bool.or_eq_true] at h
    rcases h with h | h
    · exact ⟨c :: cs, prev, List.suffix_refl _, h⟩
    · obtain ⟨t, p, hsuf, hfire⟩ := ih (some c) h
      exact ⟨t, p, hsuf.trans (List.suffix_cons c cs), hfire⟩

/-- Every hit of the `frappe.db.sql` pattern contains a hit of the `db.sql`
pattern seven characters later. -/
lemma frappe_hit_implies_db_hit {code : List Char}
    (h : searchFound frappeDbSqlPat none code = true) :
    searchFound dbSqlPat none code = true := by
  obtain ⟨t, p, hsuf, hfire⟩ := searchFound_to_suffix frappeDbSqlPat none code h
  unfold frappeDbSqlPat at hfire
  cases he : eatCI (lc "frappe.db.sql") t with
  | none => rw [he] at hfire; cases hfire
  | some r =>
    rw [he] at hfire
    have hsplit : eatCI (lc "frappe." ++ lc "db.sql") t = some r := by
      exact he
    obtain ⟨mid, hm1, hm2⟩ := eatCI_append hsplit
    have hmid : mid = t.drop 7 := by
      have := eatCI_some_drop hm1
      simpa using this
    have hfires_mid : dbSqlPat none mid = true := by
      unfold dbSqlPat
      rw [hm2]
      exact hfire
    have hsuf2 : mid <:+ code := by
      rw [hmid]
      exact (List.drop_suffix 7 t).trans hsuf
    exact searchFound_of_suffix dbSqlPat (fun _ _ _ => rfl) hsuf2 hfires_mid none

/-- A `db.sql` hit forces a non-whitespace character (a `d`) in the code. -/
lemma db_hit_strip_ne_nil {code : List Char}
    (h : searchFound dbSqlPat none code = true) : pyStrip code ≠ [] := by
  obtain ⟨t, p, hsuf, hfire⟩ := searchFound_to_suffix dbSqlPat none code h
  unfold dbSqlPat at hfire
  cases he : eatCI (lc "db.sql") t with
  | none => rw [he] at hfire; cases hfire
  | some r =>
    cases t with
    | nil => simp [lc, eatCI] at he
    | cons c cs =>
      have hc : lowerC c = 'd' := by
        simp only [lc, eatCI] at he
        by_cases hcc : lowerC c = lowerC 'd'
        · simpa using hcc
        · rw [if_neg hcc] at he; cases he
      have hcmem : c ∈ code := hsuf.subset (List.mem_cons_self c cs)
      have hcw : isPySpace c = false := by
        by_contra hx
        have hxx : isPySpace c = true := by
          cases hic : isPySpace c
          · exact absurd hic hx
          · rfl
        have : lowerC c = c := by
          unfold isPySpace at hxx
          unfold lowerC
          rw [if_neg]
          intro hrange
          rcases hrange with ⟨h1, h2⟩
          simp only [decide_eq_true_eq] at hxx
          rcases hxx with h | h | h | h | h | h <;>
            (rw [h] at h1 h2; revert h1 h2; decide)
        rw [this] at hc
        rw [hc] at hxx
        revert hxx
        decide
      exact pyStrip_ne_nil_of_mem hcmem hcw


lemma executeModel_scan_fail (args : Args) (o : Oracles) (u : String)
    (eid : Option Nat) (hctx : o.ctx = .ok (u, eid))
    (hstrip : pyStrip args.code ≠ [])
    (hsec : (scanForDangerousOperations args.code).success = false) :
    executeModel args o =
      .ok (scanResultToTool (scanForDangerousOperations args.code)) := by
  unfold executeModel executeInner
  rw [if_neg hstrip, hctx]
  simp [hsec]

/-- C2 corrected: when a destructive SQL verb appears immediately after the
opening quote of a `db.sql(`/`frappe.db.sql(` call (the shape the regex table
actually matches), the scan fails with the first `db.sql` pattern and its
message, and `execute` returns exactly that failure dict (for any exec/fetch
behaviour: nothing after the scan runs). -/
theorem dbsql_scan_rejects (code : List Char)
    (h : searchFound dbSqlPat none code = true ∨
         searchFound frappeDbSqlPat none code = true)
    (args : Args) (o : Oracles) (u : String) (eid : Option Nat)
    (hcode : args.code = code) (hctx : o.ctx = .ok (u, eid)) :
    (scanForDangerousOperations code).success = false ∧
    (scanForDangerousOperations code).pattern_matched = some dbSqlPatternText ∧
    (scanForDangerousOperations code).error =
      some (lc "🚫 Security: " ++ lc "Dangerous SQL operation detected in db.sql()") ∧
    executeModel args o = .ok (scanResultToTool (scanForDangerousOperations code)) := by
  have hdb : searchFound dbSqlPat none code = true := by
    rcases h with h | h
    · exact h
    · exact frappe_hit_implies_db_hit h
  have hfind : dangerousPatterns.find? (fun p => searchFound p.1 none code) =
      some (dbSqlPat, dbSqlPatternText,
        lc "Dangerous SQL operation detected in db.sql()") := by
    unfold dangerousPatterns
    apply List.find?_cons_of_pos
    simpa using hdb
  have hscan : scanForDangerousOperations code =
      { success := false
        error := some (lc "🚫 Security: " ++ lc "Dangerous SQL operation detected in db.sql()")
        pattern_matched := some dbSqlPatternText
        security_violation := true } := by
    unfold scanForDangerousOperations
    rw [hfind]
  refine ⟨by rw [hscan], by rw [hscan], by rw [hscan], ?_⟩
  have hstrip : pyStrip args.code ≠ [] := by
    rw [hcode]
    exact db_hit_strip_ne_nil hdb
  have hsec : (scanForDangerousOperations args.code).success = false := by
    rw [hcode, hscan]
  rw [← hcode]
  exact executeModel_scan_fail args o u eid hctx hstrip hsec

/-- Witness for C2 corrected at `frappe.db.sql('DELETE FROM tabToDo')`. -/
theorem dbsql_scan_rejects_witness :
    (searchFound dbSqlPat none (lc "frappe.db.sql(\x27DELETE FROM tabToDo\x27)") = true ∨
     searchFound frappeDbSqlPat none (lc "frappe.db.sql(\x27DELETE FROM tabToDo\x27)") = true) ∧
    ((scanForDangerousOperations (lc "frappe.db.sql(\x27DELETE FROM tabToDo\x27)")).success = false ∧
     (scanForDangerousOperations (lc "frappe.db.sql(\x27DELETE FROM tabToDo\x27)")).pattern_matched
        = some dbSqlPatternText ∧
     (scanForDangerousOperations (lc "frappe.db.sql(\x27DELETE FROM tabToDo\x27)")).error =
       some (lc "🚫 Security: " ++ lc "Dangerous SQL operation detected in db.sql()") ∧
     executeModel { code := lc "frappe.db.sql(\x27DELETE FROM tabToDo\x27)" }
         { ctx := Except.ok ("Administrator", some 9)
           libAvail := ⟨true, true, true, true, true, true⟩
           fetch := Except.ok (.pyInt 0)
           preprocessFn := fun c => (c, [])
           execFn := fun _ => .finished [] [] [] } =
       .ok (scanResultToTool
         (scanForDangerousOperations (lc "frappe.db.sql(\x27DELETE FROM tabToDo\x27)")))) :=
  ⟨Or.inr (by decide),
   dbsql_scan_rejects (lc "frappe.db.sql(\x27DELETE FROM tabToDo\x27)")
     (Or.inr (by decide))
     { code := lc "frappe.db.sql(\x27DELETE FROM tabToDo\x27)" }
     { ctx := Except.ok ("Administrator", some 9)
       libAvail := ⟨true, true, true, true, true, true⟩
       fetch := Except.ok (.pyInt 0)
       preprocessFn := fun c => (c, [])
       execFn := fun _ => .finished [] [] [] }
     "Administrator" (some 9) rfl rfl⟩

/-- C2 counterexample: `db.sql("SELECT 1; DELETE FROM tabNote")` contains the
destructive token `DELETE` inside the raw-query call, yet the scan succeeds,
because the pattern only matches a destructive verb immediately after the
opening quote. -/
theorem dbsql_scan_counterexample :
    lc "db.sql(\x22SELECT 1; DELETE FROM tabNote\x22)" =
      lc "db.sql(\x22SELECT 1; " ++ lc "DELETE" ++ lc " FROM tabNote\x22)" ∧
    isInfixL (lc "DELETE") (lc "db.sql(\x22SELECT 1; DELETE FROM tabNote\x22)") = true ∧
    (scanForDangerousOperations
      (lc "db.sql(\x22SELECT 1; DELETE FROM tabNote\x22)")).success = true := by
  refine ⟨by decide, by decide, by decide⟩


/-! ## Import mediator lemmas: C4 -/

lemma mem_of_mem_splitOnChar {sep : Char} {s x : List Char}
    (hx : x ∈ splitOnChar sep s) {c : Char} (hc : c ∈ x) : c ∈ s := by
  induction s generalizing x with
  | nil =>
    simp [splitOnChar] at hx
    rw [hx] at hc
    cases hc
  | cons a as ih =>
    cases hsp : splitOnChar sep as with
    | nil =>
      have heq : splitOnChar sep (a :: as) = [[]] := by
        simp only [splitOnChar, hsp]
      rw [heq] at hx
      simp at hx
      rw [hx] at hc
      cases hc
    | cons r rs =>
      have heq : splitOnChar sep (a :: as) =
          if a = sep then [] :: r :: rs else (a :: r) :: rs := by
        simp only [splitOnChar, hsp]
      rw [heq] at hx
      by_cases ha : a = sep
      · rw [if_pos ha] at hx
        rcases List.mem_cons.mp hx with hx1 | hx2
        · rw [hx1] at hc; cases hc
        · have : c ∈ as := ih (x := x) (by rw [hsp]; exact hx2) hc
          exact List.mem_cons_of_mem a this
      · rw [if_neg ha] at hx
        rcases List.mem_cons.mp hx with hx1 | hx2
        · rw [hx1] at hc
          rcases List.mem_cons.mp hc with hc1 | hc2
          · rw [hc1]; exact List.mem_cons_self a as
          · have : c ∈ as := ih (x := r) (by rw [hsp]; exact List.mem_cons_self r rs) hc2
            exact List.mem_cons_of_mem a this
        · have : c ∈ as := ih (x := x) (by rw [hsp]; exact List.mem_cons_of_mem r hx2) hc
          exact List.mem_cons_of_mem a this

lemma snd_mem_of_mem_enumFrom {α : Type} {l : List α} {p : Nat × α} :
    ∀ {n : Nat}, p ∈ l.enumFrom n → p.2 ∈ l := by
  induction l with
  | nil => intro n h; cases h
  | cons a as ih =>
    intro n h
    simp only [List.enumFrom] at h
    rcases List.mem_cons.mp h with h1 | h2
    · rw [h1]; exact List.mem_cons_self a as
    · exact List.mem_cons_of_mem a (ih h2)

lemma mem_problematic_decomp {lines : List (List Char)} {n : Nat} {s : List Char}
    (h : (n, s) ∈ problematicImportsOf lines) :
    ∃ line ∈ lines, pyStrip line = s ∧ isImportStmt s = true ∧
      importIsSafe s = false := by
  unfold problematicImportsOf importLinesOf at h
  rw [List.mem_filter] at h
  obtain ⟨hmem, hsafe⟩ := h
  rw [List.mem_filterMap] at hmem
  obtain ⟨⟨i, line⟩, hmem2, heq⟩ := hmem
  by_cases him : isImportStmt (pyStrip line) = true
  · rw [if_pos him] at heq
    have h1 : i + 1 = n ∧ pyStrip line = s := by
      have := Option.some.inj heq
      exact ⟨congrArg Prod.fst this, congrArg Prod.snd this⟩
    refine ⟨line, snd_mem_of_mem_enumFrom (p := (i, line)) hmem2, h1.2, ?_, ?_⟩
    · rw [← h1.2]; exact him
    · simp only [decide_eq_true_eq] at hsafe
      rw [Bool.eq_false_iff]
      intro hx
      exact hsafe hx
  · rw [if_neg him] at heq
    cases heq

lemma mem_of_mem_pyStrip {c : Char} {l : List Char} (h : c ∈ pyStrip l) :
    c ∈ l := by
  unfold pyStrip stripRight stripLeft at h
  rw [List.mem_reverse] at h
  have h2 := (List.dropWhile_sublist (p := isPySpace)
    (l := (l.dropWhile isPySpace).reverse)).subset h
  rw [List.mem_reverse] at h2
  exact (List.dropWhile_sublist (p := isPySpace) (l := l)).subset h2

lemma isImportStmt_head {s : List Char} (h : isImportStmt s = true) :
    ∃ rest, s = 'i' :: rest ∨ s = 'f' :: rest := by
  unfold isImportStmt at h
  rw [Bool.or_eq_true] at h
  rcases h with h | h
  · rw [List.isPrefixOf_iff_prefix] at h
    obtain ⟨t, ht⟩ := h
    exact ⟨lc "mport " ++ t, Or.inl (by rw [← ht]; rfl)⟩
  · rw [List.isPrefixOf_iff_prefix] at h
    obtain ⟨t, ht⟩ := h
    exact ⟨lc "rom " ++ t, Or.inr (by rw [← ht]; rfl)⟩

lemma check_fail_eq (code : List Char)
    (h : problematicImportsOf (splitOnChar '\n' code) ≠ []) :
    checkAndHandleImports code =
      { success := false
        error := some (importErrorMsg (problematicImportsOf (splitOnChar '\n' code))) } := by
  simp only [checkAndHandleImports]
  have h1 : importLinesOf (splitOnChar '\n' code) ≠ [] := by
    intro hx
    apply h
    unfold problematicImportsOf
    rw [hx]
    rfl
  rw [if_pos h1, if_pos h]

lemma executeModel_import_fail (args : Args) (o : Oracles) (u : String)
    (eid : Option Nat) (hctx : o.ctx = .ok (u, eid))
    (hstrip : pyStrip args.code ≠ [])
    (hsec : (scanForDangerousOperations args.code).success = true)
    (himp : (checkAndHandleImports args.code).success = false) :
    executeModel args o =
      .ok (checkResultToTool (checkAndHandleImports args.code)) := by
  unfold executeModel executeInner
  rw [if_neg hstrip, hctx]
  simp [hsec, himp]

/-- C4: whenever some import line is outside both safe tables, the request is
rejected: `success = false`, the error text enumerates every offending line
(each `"   Line {n}: {stmt}"` entry occurs in it) together with the list of
available pre-loaded libraries, and — provided the scan stage passed — the
pipeline returns exactly this rejection without executing anything. -/
theorem import_rejection_enumerates_all (code : List Char) (n : Nat) (s : List Char)
    (h : (n, s) ∈ problematicImportsOf (splitOnChar '\n' code)) :
    (checkAndHandleImports code).success = false ∧
    (checkAndHandleImports code).error =
      some (importErrorMsg (problematicImportsOf (splitOnChar '\n' code))) ∧
    isInfixL (problemLineText (n, s))
      (importErrorMsg (problematicImportsOf (splitOnChar '\n' code))) = true ∧
    isInfixL (lc "Available pre-loaded libraries")
      (importErrorMsg (problematicImportsOf (splitOnChar '\n' code))) = true ∧
    (∀ (args : Args) (o : Oracles) (u : String) (eid : Option Nat),
      args.code = code → o.ctx = .ok (u, eid) →
      (scanForDangerousOperations code).success = true →
      executeModel args o = .ok (checkResultToTool (checkAndHandleImports code))) := by
  have hne : problematicImportsOf (splitOnChar '\n' code) ≠ [] :=
    List.ne_nil_of_mem h
  have hcheck := check_fail_eq code hne
  refine ⟨by rw [hcheck], by rw [hcheck], ?_, ?_, ?_⟩
  · rw [isInfixL_iff]
    unfold importErrorMsg
    apply infix_append_of_infix_left
    apply infix_append_of_infix_right
    exact infix_joinSep_of_mem problemLineText (lc "\n") _ _ h
  · rw [isInfixL_iff]
    unfold importErrorMsg
    apply infix_append_of_infix_right
    rw [← isInfixL_iff]
    decide
  · intro args o u eid hcode hctx hsec
    obtain ⟨line, hline, hstripline, himport, _⟩ := mem_problematic_decomp h
    obtain ⟨rest, hrest⟩ := isImportStmt_head himport
    have hstrip : pyStrip args.code ≠ [] := by
      rw [hcode]
      rcases hrest with hr | hr
      · have hmem : 'i' ∈ code := by
          apply mem_of_mem_splitOnChar hline
          apply mem_of_mem_pyStrip
          rw [hstripline, hr]
          exact List.mem_cons_self _ _
        exact pyStrip_ne_nil_of_mem hmem (by decide)
      · have hmem : 'f' ∈ code := by
          apply mem_of_mem_splitOnChar hline
          apply mem_of_mem_pyStrip
          rw [hstripline, hr]
          exact List.mem_cons_self _ _
        exact pyStrip_ne_nil_of_mem hmem (by decide)
    have himp : (checkAndHandleImports args.code).success = false := by
      rw [hcode, hcheck]
    rw [← hcode]
    exact executeModel_import_fail args o u eid hctx hstrip
      (by rw [hcode]; exact hsec) himp

/-- Witness for C4 at `"import os\nimport zzz"`, whose two offending lines are
both enumerated. -/
theorem import_rejection_enumerates_all_witness :
    ((1, lc "import os") ∈
      problematicImportsOf (splitOnChar '\n' (lc "import os\nimport zzz"))) ∧
    ((checkAndHandleImports (lc "import os\nimport zzz")).success = false ∧
     (checkAndHandleImports (lc "import os\nimport zzz")).error =
       some (importErrorMsg (problematicImportsOf
         (splitOnChar '\n' (lc "import os\nimport zzz")))) ∧
     isInfixL (problemLineText (1, lc "import os"))
       (importErrorMsg (problematicImportsOf
         (splitOnChar '\n' (lc "import os\nimport zzz")))) = true ∧
     isInfixL (lc "Available pre-loaded libraries")
       (importErrorMsg (problematicImportsOf
         (splitOnChar '\n' (lc "import os\nimport zzz")))) = true ∧
     (∀ (args : Args) (o : Oracles) (u : String) (eid : Option Nat),
       args.code = lc "import os\nimport zzz" → o.ctx = .ok (u, eid) →
       (scanForDangerousOperations (lc "import os\nimport zzz")).success = true →
       executeModel args o =
         .ok (checkResultToTool (checkAndHandleImports (lc "import os\nimport zzz"))))) :=
  ⟨by decide, import_rejection_enumerates_all (lc "import os\nimport zzz") 1
    (lc "import os") (by decide)⟩


/-! ## Capability environment: C1 -/

/-- C1 amended: for pandas, numpy, matplotlib and seaborn the environment
binds the real module under its fixed names when importable and a
`LibraryNotInstalled` proxy under the same names otherwise, and any attribute
access on such a proxy raises an error that names the missing library and
lists the currently available libraries.  For plotly and scipy, however, the
miss branch binds nothing: `plotly`/`go`/`px` and `scipy`/`stats` are simply
absent from the environment. -/
theorem degraded_proxy_bindings (u : String) (la : LibAvail) :
    ((envLookup (setupSecureExecutionEnvironment u la) "pd" =
      some (if la.pandas then EnvVal.module "pandas" else EnvVal.notInstalled "pandas")) ∧
    (envLookup (setupSecureExecutionEnvironment u la) "pandas" =
      some (if la.pandas then EnvVal.module "pandas" else EnvVal.notInstalled "pandas")) ∧
    (envLookup (setupSecureExecutionEnvironment u la) "np" =
      some (if la.numpy then EnvVal.module "numpy" else EnvVal.notInstalled "numpy")) ∧
    (envLookup (setupSecureExecutionEnvironment u la) "numpy" =
      some (if la.numpy then EnvVal.module "numpy" else EnvVal.notInstalled "numpy")) ∧
    (envLookup (setupSecureExecutionEnvironment u la) "plt" =
      some (if la.matplotlib then EnvVal.module "matplotlib.pyplot" else EnvVal.notInstalled "matplotlib")) ∧
    (envLookup (setupSecureExecutionEnvironment u la) "matplotlib" =
      some (if la.matplotlib then EnvVal.module "matplotlib.pyplot" else EnvVal.notInstalled "matplotlib")) ∧
    (envLookup (setupSecureExecutionEnvironment u la) "sns" =
      some (if la.seaborn then EnvVal.module "seaborn" else EnvVal.notInstalled "seaborn")) ∧
    (envLookup (setupSecureExecutionEnvironment u la) "seaborn" =
      some (if la.seaborn then EnvVal.module "seaborn" else EnvVal.notInstalled "seaborn")) ∧
    (envLookup (setupSecureExecutionEnvironment u la) "plotly" =
      (if la.plotly then some EnvVal.plotlyDict else none)) ∧
    (envLookup (setupSecureExecutionEnvironment u la) "go" =
      (if la.plotly then some (EnvVal.module "plotly.graph_objects") else none)) ∧
    (envLookup (setupSecureExecutionEnvironment u la) "px" =
      (if la.plotly then some (EnvVal.module "plotly.express") else none)) ∧
    (envLookup (setupSecureExecutionEnvironment u la) "scipy" =
      (if la.scipy then some (EnvVal.module "scipy") else none)) ∧
    (envLookup (setupSecureExecutionEnvironment u la) "stats" =
      (if la.scipy then some (EnvVal.module "scipy.stats") else none))) ∧
    (∀ lib : String,
      isInfixL lib.data (libraryNotInstalledGetattr lib la) = true ∧
      isInfixL (availListText la) (libraryNotInstalledGetattr lib la) = true) := by
  constructor
  · rcases la with ⟨p, n, m, s, pl, sc⟩
    cases p <;> cases n <;> cases m <;> cases s <;> cases pl <;> cases sc <;>
      exact ⟨rfl, rfl, rfl, rfl, rfl, rfl, rfl, rfl, rfl, rfl, rfl, rfl, rfl⟩
  · intro lib
    constructor
    · rw [isInfixL_iff]
      have hmsg : libraryNotInstalledGetattr lib la =
          lc "❌ " ++ (lib.data ++
            (lc " is not installed in this environment.\n\n" ++
             lc "💡 Alternative solutions:\n" ++
             lc "   • Use frappe.get_all() for data queries and manipulation\n" ++
             lc "   • Use generate_report tool for business analytics and reporting\n" ++
             lc "   • Use Python\x27s built-in modules (math, statistics) for calculations\n" ++
             lc "   • Contact your system administrator to install " ++ lib.data ++ lc "\n\n" ++
             lc "📚 Available libraries: " ++ availListText la)) := by
        unfold libraryNotInstalledGetattr
        simp [List.append_assoc]
      rw [hmsg]
      exact infix_append_of_infix_right _
        ((List.prefix_append lib.data _).isInfix)
    · rw [isInfixL_iff]
      have hmsg : libraryNotInstalledGetattr lib la =
          (lc "❌ " ++ lib.data ++
             lc " is not installed in this environment.\n\n" ++
             lc "💡 Alternative solutions:\n" ++
             lc "   • Use frappe.get_all() for data queries and manipulation\n" ++
             lc "   • Use generate_report tool for business analytics and reporting\n" ++
             lc "   • Use Python\x27s built-in modules (math, statistics) for calculations\n" ++
             lc "   • Contact your system administrator to install " ++ lib.data ++ lc "\n\n" ++
             lc "📚 Available libraries: ") ++ availListText la := by
        unfold libraryNotInstalledGetattr
        simp [List.append_assoc]
      rw [hmsg]
      exact (List.suffix_append _ (availListText la)).isInfix

/-- C1 counterexample: with plotly and scipy unavailable (and everything else
available), no degraded proxy is bound: the names `plotly`, `go`, `px`,
`scipy` and `stats` are simply absent from the environment, so a script
touching them fails with a NameError rather than the structured proxy error. -/
theorem missing_plotly_scipy_unbound_counterexample :
    envLookup (setupSecureExecutionEnvironment "Administrator"
      ⟨true, true, true, true, false, false⟩) "plotly" = none ∧
    envLookup (setupSecureExecutionEnvironment "Administrator"
      ⟨true, true, true, true, false, false⟩) "go" = none ∧
    envLookup (setupSecureExecutionEnvironment "Administrator"
      ⟨true, true, true, true, false, false⟩) "px" = none ∧
    envLookup (setupSecureExecutionEnvironment "Administrator"
      ⟨true, true, true, true, false, false⟩) "scipy" = none ∧
    envLookup (setupSecureExecutionEnvironment "Administrator"
      ⟨true, true, true, true, false, false⟩) "stats" = none := by
  refine ⟨rfl, rfl, rfl, rfl, rfl⟩


/-! ## Split/join and strip lemmas: C10 -/

lemma splitOnChar_ne_nil (sep : Char) (s : List Char) :
    splitOnChar sep s ≠ [] := by
  cases s with
  | nil => simp [splitOnChar]
  | cons c cs =>
    cases hsp : splitOnChar sep cs with
    | nil =>
      have heq : splitOnChar sep (c :: cs) = [[]] := by
        simp only [splitOnChar, hsp]
      rw [heq]
      simp
    | cons r rs =>
      have heq : splitOnChar sep (c :: cs) =
          if c = sep then [] :: r :: rs else (c :: r) :: rs := by
        simp only [splitOnChar, hsp]
      rw [heq]
      by_cases hc : c = sep
      · rw [if_pos hc]; simp
      · rw [if_neg hc]; simp

lemma sep_not_mem_of_mem_splitOnChar {sep : Char} {s x : List Char}
    (hx : x ∈ splitOnChar sep s) : sep ∉ x := by
  induction s generalizing x with
  | nil =>
    simp [splitOnChar] at hx
    rw [hx]
    simp
  | cons a as ih =>
    cases hsp : splitOnChar sep as with
    | nil => exact absurd hsp (splitOnChar_ne_nil sep as)
    | cons r rs =>
      have heq : splitOnChar sep (a :: as) =
          if a = sep then [] :: r :: rs else (a :: r) :: rs := by
        simp only [splitOnChar, hsp]
      rw [heq] at hx
      by_cases ha : a = sep
      · rw [if_pos ha] at hx
        rcases List.mem_cons.mp hx with h1 | h2
        · rw [h1]; simp
        · exact ih (by rw [hsp]; exact h2)
      · rw [if_neg ha] at hx
        rcases List.mem_cons.mp hx with h1 | h2
        · rw [h1]
          intro hmem
          rcases List.mem_cons.mp hmem with hm1 | hm2
          · exact ha hm1.symm
          · exact ih (x := r) (by rw [hsp]; exact List.mem_cons_self r rs) hm2
        · exact ih (by rw [hsp]; exact List.mem_cons_of_mem r h2)

lemma splitOnChar_of_not_mem {sep : Char} {xs : List Char} (h : sep ∉ xs) :
    splitOnChar sep xs = [xs] := by
  induction xs with
  | nil => rfl
  | cons c cs ih =>
    have hc : c ≠ sep := fun hx => h (by rw [hx]; exact List.mem_cons_self _ _)
    have hcs : sep ∉ cs := fun hx => h (List.mem_cons_of_mem c hx)
    simp only [splitOnChar, ih hcs]
    rw [if_neg (fun hx => hc hx)]

lemma splitOnChar_append_cons {sep : Char} {xs rest : List Char} (h : sep ∉ xs) :
    splitOnChar sep (xs ++ sep :: rest) = xs :: splitOnChar sep rest := by
  induction xs with
  | nil =>
    cases hsp : splitOnChar sep rest with
    | nil => exact absurd hsp (splitOnChar_ne_nil sep rest)
    | cons r rs =>
      have heq : splitOnChar sep ([] ++ sep :: rest) = [] :: r :: rs := by
        simp only [List.nil_append, splitOnChar, hsp]
        simp
      rw [heq]
  | cons c cs ih =>
    have hc : c ≠ sep := fun hx => h (by rw [hx]; exact List.mem_cons_self _ _)
    have hcs : sep ∉ cs := fun hx => h (List.mem_cons_of_mem c hx)
    have heq : splitOnChar sep ((c :: cs) ++ sep :: rest) =
        if c = sep then [] :: cs :: splitOnChar sep rest
        else (c :: cs) :: splitOnChar sep rest := by
      simp only [List.cons_append, splitOnChar, List.append_eq, ih hcs]
    rw [heq, if_neg hc]

lemma splitOnChar_joinSep {sep : Char} :
    ∀ (ls : List (List Char)), ls ≠ [] → (∀ x ∈ ls, sep ∉ x) →
      splitOnChar sep (joinSep [sep] ls) = ls := by
  intro ls
  induction ls with
  | nil => intro h; exact absurd rfl h
  | cons x xs ih =>
    intro _ hmem
    cases xs with
    | nil =>
      simp only [joinSep]
      exact splitOnChar_of_not_mem (hmem x (List.mem_cons_self _ _))
    | cons y ys =>
      simp only [joinSep]
      have hx : sep ∉ x := hmem x (List.mem_cons_self _ _)
      have : x ++ [sep] ++ joinSep [sep] (y :: ys) =
          x ++ sep :: joinSep [sep] (y :: ys) := by simp
      rw [this, splitOnChar_append_cons hx]
      rw [ih (by simp) (fun z hz => hmem z (List.mem_cons_of_mem x hz))]

lemma dropWhile_append_singleton (p : Char → Bool) (l : List Char) (x : Char) :
    List.dropWhile p (l ++ [x]) =
      if List.dropWhile p l = [] then (if p x then [] else [x])
      else List.dropWhile p l ++ [x] := by
  induction l with
  | nil =>
    simp only [List.nil_append]
    rw [show List.dropWhile p [] = [] from rfl, if_pos rfl]
    cases hx : p x <;> simp [List.dropWhile, hx]
  | cons c cs ih =>
    by_cases hc : p c = true
    · simp only [List.cons_append, List.dropWhile_cons_of_pos hc, ih]
    · simp only [List.cons_append, List.dropWhile_cons_of_neg hc]
      rw [if_neg (by simp)]

lemma stripRight_cons (h : Char) (t : List Char) :
    stripRight (h :: t) =
      if stripRight t = [] then (if isPySpace h then [] else [h])
      else h :: stripRight t := by
  unfold stripRight
  rw [List.reverse_cons, dropWhile_append_singleton]
  by_cases ht : List.dropWhile isPySpace t.reverse = []
  · rw [if_pos ht, if_pos (show (List.dropWhile isPySpace t.reverse).reverse = [] by rw [ht]; rfl)]
    by_cases hh : isPySpace h = true
    · rw [if_pos hh]
      rfl
    · rw [if_neg hh]
      rfl
  · rw [if_neg ht, if_neg (show ¬ (List.dropWhile isPySpace t.reverse).reverse = [] by
      simpa using ht)]
    rw [List.reverse_append]
    simp

lemma stripRight_head {h : Char} (t : List Char) (hh : isPySpace h = false) :
    ∃ r, stripRight (h :: t) = h :: r := by
  rw [stripRight_cons]
  by_cases ht : stripRight t = []
  · rw [if_pos ht, if_neg (by simp [hh])]
    exact ⟨[], rfl⟩
  · rw [if_neg ht]
    exact ⟨stripRight t, rfl⟩

lemma stripLeft_append_allws {w : List Char} (t : List Char)
    (hw : ∀ c ∈ w, isPySpace c = true) :
    stripLeft (w ++ t) = stripLeft t := by
  induction w with
  | nil => rfl
  | cons c cs ih =>
    have hc : isPySpace c = true := hw c (List.mem_cons_self _ _)
    simp only [List.cons_append, stripLeft, List.dropWhile_cons_of_pos hc]
    exact ih (fun x hx => hw x (List.mem_cons_of_mem c hx))

lemma pyStrip_decomp (l : List Char) :
    ∃ w1 w2, l = w1 ++ pyStrip l ++ w2 ∧
      (∀ c ∈ w1, isPySpace c = true) ∧ (∀ c ∈ w2, isPySpace c = true) := by
  refine ⟨l.takeWhile isPySpace,
    ((stripLeft l).reverse.takeWhile isPySpace).reverse, ?_, ?_, ?_⟩
  · unfold pyStrip stripRight
    have h1 : l = l.takeWhile isPySpace ++ stripLeft l :=
      (List.takeWhile_append_dropWhile (p := isPySpace) (l := l)).symm
    have h2 : stripLeft l =
        ((stripLeft l).reverse.dropWhile isPySpace).reverse ++
          ((stripLeft l).reverse.takeWhile isPySpace).reverse := by
      have h3 : (stripLeft l).reverse =
          (stripLeft l).reverse.takeWhile isPySpace ++
            (stripLeft l).reverse.dropWhile isPySpace :=
        (List.takeWhile_append_dropWhile (p := isPySpace)
          (l := (stripLeft l).reverse)).symm
      calc stripLeft l = (stripLeft l).reverse.reverse := by rw [List.reverse_reverse]
        _ = ((stripLeft l).reverse.takeWhile isPySpace ++
              (stripLeft l).reverse.dropWhile isPySpace).reverse := by rw [← h3]
        _ = ((stripLeft l).reverse.dropWhile isPySpace).reverse ++
              ((stripLeft l).reverse.takeWhile isPySpace).reverse := by
              rw [List.reverse_append]
    rw [List.append_assoc, ← h2]
    exact h1
  · intro c hc
    exact List.mem_takeWhile_imp hc
  · intro c hc
    rw [List.mem_reverse] at hc
    exact List.mem_takeWhile_imp hc


lemma lookup_some_mem {α β : Type} [BEq α] [LawfulBEq α]
    {k : α} {v : β} : ∀ {l : List (α × β)}, List.lookup k l = some v →
      (k, v) ∈ l := by
  intro l
  induction l with
  | nil => intro h; cases h
  | cons p t ih =>
    intro h
    rcases p with ⟨a, b⟩
    simp only [List.lookup] at h
    by_cases hk : (k == a) = true
    · simp only [hk] at h
      have h2 : k = a := eq_of_beq hk
      have hv : b = v := Option.some.inj h
      rw [h2, ← hv]
      exact List.mem_cons_self _ _
    · have hk2 : (k == a) = false := by simpa using hk
      simp only [hk2] at h
      exact List.mem_cons_of_mem _ (ih h)

lemma pyReplaceFuel_allws {h : Char} {tl new : List Char}
    (hh : isPySpace h = false) :
    ∀ (fuel : Nat) (w : List Char), (∀ c ∈ w, isPySpace c = true) →
      pyReplaceFuel (h :: tl) new fuel w = w := by
  intro fuel
  induction fuel with
  | zero => intro w _; rfl
  | succ f ih =>
    intro w hw
    cases w with
    | nil => rfl
    | cons c cs =>
      have hc : isPySpace c = true := hw c (List.mem_cons_self _ _)
      have hpre : (h :: tl).isPrefixOf (c :: cs) = false := by
        have hne : (h == c) = false := by
          rw [beq_eq_false_iff_ne]
          intro hx
          rw [hx, hc] at hh
          cases hh
        simp [List.isPrefixOf, hne]
      simp only [pyReplaceFuel]
      rw [if_neg (fun hx => by rw [hpre] at hx; exact Bool.false_ne_true hx.1)]
      rw [ih cs (fun x hx => hw x (List.mem_cons_of_mem c hx))]

lemma pyReplaceFuel_decomp {h : Char} {tl new w2 : List Char}
    (hh : isPySpace h = false) (hw2 : ∀ c ∈ w2, isPySpace c = true) :
    ∀ (w1 : List Char) (fuel : Nat), (∀ c ∈ w1, isPySpace c = true) →
      w1.length + 1 ≤ fuel →
      pyReplaceFuel (h :: tl) new fuel (w1 ++ (h :: tl) ++ w2) =
        w1 ++ new ++ w2 := by
  intro w1
  induction w1 with
  | nil =>
    intro fuel _ hfuel
    cases fuel with
    | zero => omega
    | succ f =>
      simp only [List.nil_append]
      rw [List.cons_append]
      simp only [pyReplaceFuel]
      rw [if_pos ⟨List.isPrefixOf_iff_prefix.mpr ⟨w2, by simp⟩, by simp⟩]
      have hdrop : (h :: (tl ++ w2)).drop (h :: tl).length = w2 := by
        have : h :: (tl ++ w2) = (h :: tl) ++ w2 := by simp
        rw [this, List.drop_left]
      rw [hdrop, pyReplaceFuel_allws hh f w2 hw2]
  | cons a w1' ih =>
    intro fuel hws hfuel
    cases fuel with
    | zero => omega
    | succ f =>
      have ha : isPySpace a = true := hws a (List.mem_cons_self _ _)
      have hpre : (h :: tl).isPrefixOf (a :: (w1' ++ (h :: tl) ++ w2)) = false := by
        have hne : (h == a) = false := by
          rw [beq_eq_false_iff_ne]
          intro hx
          rw [hx, ha] at hh
          cases hh
        simp [List.isPrefixOf, hne]
      have hshape : (a :: w1') ++ (h :: tl) ++ w2 =
          a :: (w1' ++ (h :: tl) ++ w2) := by simp
      rw [hshape]
      simp only [pyReplaceFuel]
      rw [if_neg (fun hx => by rw [hpre] at hx; exact Bool.false_ne_true hx.1)]
      rw [ih f (fun x hx => hws x (List.mem_cons_of_mem a hx)) (by
        simp only [List.length_cons] at hfuel
        omega)]
      simp

lemma pyReplace_decomp {h : Char} {tl new w1 w2 : List Char}
    (hh : isPySpace h = false)
    (hw1 : ∀ c ∈ w1, isPySpace c = true) (hw2 : ∀ c ∈ w2, isPySpace c = true) :
    pyReplace (w1 ++ (h :: tl) ++ w2) (h :: tl) new = w1 ++ new ++ w2 := by
  unfold pyReplace
  apply pyReplaceFuel_decomp hh hw2 w1 _ hw1
  simp [List.length_append]

lemma safeReplacements_comment_facts :
    ∀ p ∈ safeReplacements, p.2.head? = some '#' ∧ '\n' ∉ p.2 := by decide

lemma safePrefixes_comment_facts :
    ∀ p ∈ safePrefixes, p.2.head? = some '#' ∧ '\n' ∉ p.2 := by decide

lemma isImportStmt_hash (r : List Char) : isImportStmt ('#' :: r) = false := by
  unfold isImportStmt
  have h1 : lc "import " = 'i' :: lc "mport " := rfl
  have h2 : lc "from " = 'f' :: lc "rom " := rfl
  have h3 : (('i' : Char) == '#') = false := by decide
  have h4 : (('f' : Char) == '#') = false := by decide
  rw [h1, h2]
  simp [List.isPrefixOf, h3, h4]

lemma pyStrip_hash_head {w1 w2 rr : List Char}
    (hw1 : ∀ c ∈ w1, isPySpace c = true) :
    ∃ r, pyStrip (w1 ++ ('#' :: rr) ++ w2) = '#' :: r := by
  unfold pyStrip
  have hassoc : w1 ++ ('#' :: rr) ++ w2 = w1 ++ (('#' :: rr) ++ w2) := by simp
  rw [hassoc, stripLeft_append_allws _ hw1]
  have hcons : ('#' :: rr) ++ w2 = '#' :: (rr ++ w2) := by simp
  rw [hcons]
  have hleft : stripLeft ('#' :: (rr ++ w2)) = '#' :: (rr ++ w2) := by
    unfold stripLeft
    rw [List.dropWhile_cons_of_neg (by decide)]
  rw [hleft]
  exact stripRight_head (rr ++ w2) (by decide)


lemma processedLine_shape {line : List Char}
    (him : isImportStmt (pyStrip line) = true)
    (hsafe : importIsSafe (pyStrip line) = true) :
    ∃ repl w1 w2, processedLine line = w1 ++ repl ++ w2 ∧
      (∀ c ∈ w1, isPySpace c = true) ∧
      (∃ rr, repl = '#' :: rr) ∧ '\n' ∉ repl ∧
      (∀ c ∈ w1, c ∈ line) ∧ (∀ c ∈ w2, c ∈ line) := by
  obtain ⟨w1, w2, hdecomp, hw1, hw2⟩ := pyStrip_decomp line
  obtain ⟨rest, hrest⟩ := isImportStmt_head him
  have hmemw1 : ∀ c ∈ w1, c ∈ line := by
    intro c hc
    rw [hdecomp]
    exact List.mem_append.mpr (Or.inl (List.mem_append.mpr (Or.inl hc)))
  have hmemw2 : ∀ c ∈ w2, c ∈ line := by
    intro c hc
    rw [hdecomp]
    exact List.mem_append.mpr (Or.inr hc)
  have hrepl_eq : ∀ repl : List Char,
      pyReplace line (pyStrip line) repl = w1 ++ repl ++ w2 := by
    intro repl
    rcases hrest with hr | hr
    · rw [hr] at hdecomp ⊢
      rw [hdecomp]
      exact pyReplace_decomp (by decide) hw1 hw2
    · rw [hr] at hdecomp ⊢
      rw [hdecomp]
      exact pyReplace_decomp (by decide) hw1 hw2
  unfold processedLine
  rw [if_pos him]
  cases hlk : safeReplacements.lookup (pyStrip line) with
  | some repl =>
    have hmem := lookup_some_mem hlk
    have hfact := safeReplacements_comment_facts _ hmem
    refine ⟨repl, w1, w2, hrepl_eq repl, hw1, ?_, hfact.2, hmemw1, hmemw2⟩
    cases repl with
    | nil => cases hfact.1
    | cons c cr =>
      have : c = '#' := by
        have := hfact.1
        simp only [List.head?] at this
        exact Option.some.inj this
      exact ⟨cr, by rw [this]⟩
  | none =>
    have hany : safePrefixes.any (fun p => p.1.isPrefixOf (pyStrip line)) = true := by
      unfold importIsSafe at hsafe
      rw [hlk] at hsafe
      simpa using hsafe
    obtain ⟨p, hp, hpp⟩ := List.any_eq_true.mp hany
    cases hfind : safePrefixes.find? (fun p => p.1.isPrefixOf (pyStrip line)) with
    | none =>
      have := List.find?_eq_none.mp hfind p hp
      rw [hpp] at this
      cases this rfl
    | some pr =>
      have hmem := List.mem_of_find?_eq_some hfind
      have hfact := safePrefixes_comment_facts _ hmem
      refine ⟨pr.2, w1, w2, hrepl_eq pr.2, hw1, ?_, hfact.2, hmemw1, hmemw2⟩
      cases hpr2 : pr.2 with
      | nil => rw [hpr2] at hfact; cases hfact.1
      | cons c cr =>
        have : c = '#' := by
          have h5 := hfact.1
          rw [hpr2] at h5
          simp only [List.head?] at h5
          exact Option.some.inj h5
        exact ⟨cr, by rw [this]⟩

lemma processedLine_not_import (line : List Char)
    (hls : isImportStmt (pyStrip line) = true → importIsSafe (pyStrip line) = true)
    (hnl : '\n' ∉ line) :
    isImportStmt (pyStrip (processedLine line)) = false ∧
      '\n' ∉ processedLine line := by
  by_cases him : isImportStmt (pyStrip line) = true
  · obtain ⟨repl, w1, w2, hplEq, hw1, ⟨rr, hrr⟩, hnlrepl, hmw1, hmw2⟩ :=
      processedLine_shape him (hls him)
    constructor
    · rw [hplEq, hrr]
      obtain ⟨r, hr⟩ := @pyStrip_hash_head w1 w2 rr hw1
      rw [hr]
      exact isImportStmt_hash r
    · rw [hplEq]
      intro hmem
      rcases List.mem_append.mp hmem with hm | hm
      · rcases List.mem_append.mp hm with hm1 | hm2
        · exact hnl (hmw1 _ hm1)
        · exact hnlrepl hm2
      · exact hnl (hmw2 _ hm)
  · have him2 : isImportStmt (pyStrip line) = false := by
      cases hx : isImportStmt (pyStrip line)
      · rfl
      · exact absurd hx him
    have hpl : processedLine line = line := by
      unfold processedLine
      rw [if_neg him]
    rw [hpl]
    exact ⟨him2, hnl⟩

lemma exists_enumFrom_of_mem {α : Type} {l : List α} {x : α} (h : x ∈ l) :
    ∀ n, ∃ i, (i, x) ∈ l.enumFrom n := by
  induction l with
  | nil => cases h
  | cons a as ih =>
    intro n
    rcases List.mem_cons.mp h with h1 | h2
    · refine ⟨n, ?_⟩
      rw [h1]
      exact List.mem_cons_self _ _
    · obtain ⟨i, hi⟩ := ih h2 (n + 1)
      exact ⟨i, List.mem_cons_of_mem _ hi⟩

lemma all_imports_safe_of_no_problematic {lines : List (List Char)}
    (h : problematicImportsOf lines = []) :
    ∀ line ∈ lines, isImportStmt (pyStrip line) = true →
      importIsSafe (pyStrip line) = true := by
  intro line hline him
  by_contra hx
  obtain ⟨i, hi⟩ := exists_enumFrom_of_mem hline 0
  have hmem : (i + 1, pyStrip line) ∈ importLinesOf lines := by
    unfold importLinesOf
    rw [List.mem_filterMap]
    exact ⟨(i, line), hi, by rw [if_pos him]⟩
  have hprob : (i + 1, pyStrip line) ∈ problematicImportsOf lines := by
    unfold problematicImportsOf
    rw [List.mem_filter]
    exact ⟨hmem, by simpa using hx⟩
  rw [h] at hprob
  cases hprob

lemma check_success_eq (code : List Char)
    (h : (checkAndHandleImports code).success = true) :
    (checkAndHandleImports code).code =
      joinSep (lc "\n") ((splitOnChar '\n' code).map processedLine) ∧
    problematicImportsOf (splitOnChar '\n' code) = [] := by
  simp only [checkAndHandleImports] at h ⊢
  by_cases h1 : importLinesOf (splitOnChar '\n' code) ≠ []
  · rw [if_pos h1] at h ⊢
    by_cases h2 : problematicImportsOf (splitOnChar '\n' code) ≠ []
    · rw [if_pos h2] at h
      simp at h
    · rw [if_neg h2]
      exact ⟨rfl, not_not.mp h2⟩
  · rw [if_neg h1]
    refine ⟨rfl, ?_⟩
    unfold problematicImportsOf
    rw [not_not.mp h1]
    rfl

lemma filterMap_eq_self_of {α : Type} {l : List α} {f : α → Option α}
    (h : ∀ x ∈ l, f x = some x) : l.filterMap f = l := by
  induction l with
  | nil => rfl
  | cons a as ih =>
    rw [List.filterMap_cons, h a (List.mem_cons_self _ _),
      ih (fun x hx => h x (List.mem_cons_of_mem a hx))]

/-- C10: the import mediator and the dangerous-import removal pass commute
trivially on accepted code: every import line was already rewritten into a
comment, so `_remove_dangerous_imports` returns the mediated code unchanged. -/
theorem mediated_code_removal_fixpoint (code : List Char)
    (h : (checkAndHandleImports code).success = true) :
    removeDangerousImports (checkAndHandleImports code).code =
      (checkAndHandleImports code).code := by
  obtain ⟨hcode, hprob⟩ := check_success_eq code h
  have hsafe := all_imports_safe_of_no_problematic hprob
  have hfacts : ∀ pl ∈ (splitOnChar '\n' code).map processedLine,
      isImportStmt (pyStrip pl) = false ∧ '\n' ∉ pl := by
    intro pl hpl
    obtain ⟨line, hline, hplEq⟩ := List.mem_map.mp hpl
    rw [← hplEq]
    exact processedLine_not_import line (hsafe line hline)
      (sep_not_mem_of_mem_splitOnChar hline)
  rw [hcode]
  have hne : (splitOnChar '\n' code).map processedLine ≠ [] := by
    intro hx
    exact splitOnChar_ne_nil '\n' code (List.map_eq_nil_iff.mp hx)
  have hnl : ∀ x ∈ (splitOnChar '\n' code).map processedLine, '\n' ∉ x :=
    fun x hx => (hfacts x hx).2
  have hsplit : splitOnChar '\n'
      (joinSep (lc "\n") ((splitOnChar '\n' code).map processedLine)) =
      (splitOnChar '\n' code).map processedLine := by
    have hsep : lc "\n" = ['\n'] := rfl
    rw [hsep]
    exact splitOnChar_joinSep _ hne hnl
  simp only [removeDangerousImports]
  rw [hsplit]
  rw [filterMap_eq_self_of (fun x hx => by
    rw [if_neg (fun hc => by rw [(hfacts x hx).1] at hc; exact Bool.false_ne_true hc)])]

/-- Witness for C10 at `"import math\nfrom datetime import date\nx = 1"`. -/
theorem mediated_code_removal_fixpoint_witness :
    ((checkAndHandleImports
        (lc "import math\nfrom datetime import date\nx = 1")).success = true) ∧
    (removeDangerousImports (checkAndHandleImports
        (lc "import math\nfrom datetime import date\nx = 1")).code =
      (checkAndHandleImports
        (lc "import math\nfrom datetime import date\nx = 1")).code) :=
  ⟨by decide, mediated_code_removal_fixpoint
    (lc "import math\nfrom datetime import date\nx = 1") (by decide)⟩


end RunPythonCode
